import Mathlib

/-!
A shallow embedding of the subscription lifecycle core of the `vpn_service`
repository (Python sources under `app/`), together with proofs about it.

Modelling conventions:
* time is an integer number of seconds (`Int`); `timedelta(days = d)` becomes
  `d * 86400`;
* database tables become lists inside a `DB` structure; SQL `UPDATE ... WHERE`
  becomes a pointwise `List.map`, `SELECT ... LIMIT 1` becomes `List.find?`,
  and `ORDER BY` becomes `List.insertionSort`;
* `Decimal` amounts and the float referral multipliers are modelled as `ℚ`
  (the source only ever feeds decimal literals into them);
* each webhook handler is modelled from the point where the incoming payload
  has been parsed and verified; external inputs (payment id, telegram user id,
  tariff code, freshly generated WireGuard keys, the `created_at` values the
  YooKassa API would return, whether the `wg` tool invocations succeed) are
  explicit parameters.
-/

namespace VpnService

/-- One row of the `vpn_subscriptions` table (`db.init_db`). -/
structure Subscription where
  id : Nat
  telegram_user_id : Int
  period : String
  channel_name : String
  vpn_ip : String
  wg_private_key : String
  wg_public_key : String
  expires_at : Int
  active : Bool
  last_event_name : String
deriving Repr, DecidableEq

/-- One row of the append-only `user_points_transactions` ledger. -/
structure PointsTx where
  telegram_user_id : Int
  delta : Int
  reason : String
  source : String
  related_subscription_id : Option Nat
  level : Option Nat
deriving Repr, DecidableEq

/-- One row of the `tariffs` catalogue (the columns the modelled code reads). -/
structure Tariff where
  code : String
  duration_days : Option Int
  points_cost : Option Int
  ref_base_bonus_points : Option Int
  ref_enabled : Bool
  is_active : Bool
deriving Repr, DecidableEq

/-- One row of the `referral_levels` configuration table. -/
structure RefLevelCfg where
  level : Nat
  multiplier : ℚ
  is_active : Bool
deriving Repr, DecidableEq

/-- The database of record: every table the modelled operations touch.
`balances` is `user_points` (one row per user), `referrals` maps a referred
user to its referrer, `profiles` holds the `is_referral_blocked` flag. -/
structure DB where
  subs : List Subscription
  nextId : Nat
  balances : List (Int × Int)
  txs : List PointsTx
  referrals : List (Int × Int)
  refLevels : List RefLevelCfg
  profiles : List (Int × Bool)
  tariffs : List Tariff
deriving Repr

/-- The empty database (state right after `init_db` on a fresh instance). -/
def emptyDB : DB :=
  { subs := [], nextId := 1, balances := [], txs := [], referrals := []
    refLevels := [], profiles := [], tariffs := [] }

/-- An `aiohttp` response; `web.Response(text=...)` defaults to status 200. -/
structure Response where
  status : Nat
  text : String
deriving Repr, DecidableEq

/-- `web.Response(text = t)` — status defaults to 200. -/
def okResponse (t : String) : Response := ⟨200, t⟩

/-! ### Store primitives (`app/db.py`) -/

/-- `db.subscription_exists_by_event`: is there a row with this
`last_event_name`? -/
def subscription_exists_by_event (db : DB) (eventName : String) : Bool :=
  db.subs.any (fun s => s.last_event_name == eventName)

/-- `db.get_subscription_by_event`: latest row (greatest id) carrying the
event name. -/
def get_subscription_by_event (db : DB) (eventName : String) : Option Subscription :=
  (db.subs.filter (fun s => s.last_event_name == eventName)).foldl
    (fun acc s =>
      match acc with
      | none => some s
      | some b => if b.id ≤ s.id then some s else some b)
    none

/-- `db.update_subscription_expiration`: `UPDATE vpn_subscriptions SET
expires_at = %s, last_event_name = %s WHERE id = %s`. -/
def update_subscription_expiration (db : DB) (subId : Nat) (expiresAt : Int)
    (eventName : String) : DB :=
  { db with
      subs := db.subs.map (fun r =>
        if r.id == subId then
          { r with expires_at := expiresAt, last_event_name := eventName }
        else r) }

/-- The row update performed by `db.deactivate_subscription_by_id`
(`SET active = FALSE, last_event_name = %s WHERE id = %s AND active`). -/
def deactRow (subId : Nat) (eventName : String) (r : Subscription) : Subscription :=
  if r.id == subId && r.active then
    { r with active := false, last_event_name := eventName }
  else r

/-- `db.deactivate_subscription_by_id`: returns the previously-active row (if
any) and flips it to inactive. -/
def deactivate_subscription_by_id (db : DB) (subId : Nat) (eventName : String) :
    DB × Option Subscription :=
  match db.subs.find? (fun s => s.id == subId && s.active) with
  | none => (db, none)
  | some s => ({ db with subs := db.subs.map (deactRow subId eventName) }, some s)

/-- `db.insert_subscription`: append a new active row, return its id. -/
def insert_subscription (db : DB) (tg : Int) (period channelName vpnIp priv pub : String)
    (expiresAt : Int) (eventName : String) : DB × Nat :=
  ({ db with
      subs := db.subs ++
        [{ id := db.nextId, telegram_user_id := tg, period := period
           channel_name := channelName, vpn_ip := vpnIp, wg_private_key := priv
           wg_public_key := pub, expires_at := expiresAt, active := true
           last_event_name := eventName }]
      nextId := db.nextId + 1 },
   db.nextId)

/-- The `WHERE` clause of `get_active_subscriptions_for_telegram`
(`telegram_user_id = %s AND active AND expires_at > NOW()`). -/
def isActiveFor (tg : Int) (now : Int) (s : Subscription) : Bool :=
  s.telegram_user_id == tg && s.active && now < s.expires_at

/-- The `ORDER BY expires_at DESC, id DESC` comparator. -/
def subDescLE (a b : Subscription) : Bool :=
  b.expires_at < a.expires_at || (a.expires_at == b.expires_at && b.id ≤ a.id)

/-- `db.get_active_subscriptions_for_telegram`: active, not-yet-expired rows of
the user, ordered by `expires_at DESC, id DESC`. -/
def get_active_subscriptions_for_telegram (db : DB) (tg : Int) (now : Int) :
    List Subscription :=
  List.insertionSort (fun a b => subDescLE a b)
    (db.subs.filter (isActiveFor tg now))

/-- `db.get_latest_subscription_for_telegram`: the active, not-yet-expired row
with the greatest `expires_at` (ties by greatest id), or none. -/
def get_latest_subscription_for_telegram (db : DB) (tg : Int) (now : Int) :
    Option Subscription :=
  (get_active_subscriptions_for_telegram db tg now).head?

/-- `db.has_referral_trial_subscription`: any row whose `last_event_name` is
`referral_free_trial_7d`. -/
def has_referral_trial_subscription (db : DB) (tg : Int) : Bool :=
  db.subs.any (fun s =>
    s.telegram_user_id == tg && s.last_event_name == "referral_free_trial_7d")

/-- `db.is_vpn_ip_used`: the ip is held by some active not-yet-expired row. -/
def is_vpn_ip_used (db : DB) (vpnIp : String) (now : Int) : Bool :=
  db.subs.any (fun s => s.vpn_ip == vpnIp && s.active && now < s.expires_at)

/-! ### Points (`db.add_points`, `db.pay_subscription_with_points`) -/

/-- Current balance of a user: the `user_points` row, or 0 when absent. -/
def balanceOf (db : DB) (tg : Int) : Int :=
  match db.balances.find? (fun p => p.1 == tg) with
  | some p => p.2
  | none => 0

/-- The `INSERT ... ON CONFLICT (telegram_user_id) DO UPDATE` upsert on
`user_points`. -/
def upsertBalance : List (Int × Int) → Int → Int → List (Int × Int)
  | [], tg, v => [(tg, v)]
  | p :: rest, tg, v =>
      if p.1 == tg then (tg, v) :: rest else p :: upsertBalance rest tg v

/-- Result record of `db.add_points`. -/
structure AddPointsResult where
  ok : Bool
  balance : Option Int
deriving Repr, DecidableEq

/-- `db.add_points`: the single point of balance change.  Rejects a zero
delta; rejects a negative resulting balance unless `allow_negative`; otherwise
upserts `user_points` and appends the ledger row in the same transaction. -/
def add_points (db : DB) (tg : Int) (delta : Int) (reason source : String)
    (relatedSub : Option Nat) (level : Option Nat)
    (allowNegative : Bool) : DB × AddPointsResult :=
  if delta == 0 then (db, ⟨false, none⟩)
  else
    let oldBalance := balanceOf db tg
    let newBalance := oldBalance + delta
    if !allowNegative && newBalance < 0 then (db, ⟨false, some oldBalance⟩)
    else
      ({ db with
          balances := upsertBalance db.balances tg newBalance
          txs := db.txs ++
            [{ telegram_user_id := tg, delta := delta, reason := reason
               source := source, related_subscription_id := relatedSub
               level := level }] },
       ⟨true, some newBalance⟩)

/-- Tariff lookup of `pay_subscription_with_points` (`WHERE code = %s AND
is_active AND points_cost IS NOT NULL LIMIT 1`). -/
def findPointsTariff (db : DB) (code : String) : Option Tariff :=
  db.tariffs.find? (fun t => t.code == code && t.is_active && t.points_cost.isSome)

/-- Result record of `db.pay_subscription_with_points` (the fields the claims
talk about). -/
structure PayPointsResult where
  ok : Bool
  error : Option String
  subscription_id : Option Nat
  new_expires_at : Option Int
  new_balance : Option Int
deriving Repr, DecidableEq

/-- `db.pay_subscription_with_points`: one transaction that charges the points
cost of a tariff and extends the latest active subscription by
`GREATEST(expires_at, NOW()) + duration_days`.  Any validation failure leaves
the database untouched. -/
def pay_subscription_with_points (db : DB) (tg : Int) (code : String) (now : Int) :
    DB × PayPointsResult :=
  if code == "" then (db, ⟨false, some "empty_tariff_code", none, none, none⟩)
  else
    match findPointsTariff db code with
    | none => (db, ⟨false, some "tariff_not_found_or_inactive", none, none, none⟩)
    | some t =>
      let pointsCost := (t.points_cost).getD 0
      let durationDays := (t.duration_days).getD 0
      if pointsCost ≤ 0 || durationDays ≤ 0 then
        (db, ⟨false, some "invalid_tariff_points_or_duration", none, none, none⟩)
      else
        match get_latest_subscription_for_telegram db tg now with
        | none => (db, ⟨false, some "no_active_subscription", none, none, none⟩)
        | some sub =>
          let currentBalance := balanceOf db tg
          if currentBalance < pointsCost then
            (db, ⟨false, some "insufficient_points", some sub.id, none,
                  some currentBalance⟩)
          else
            let newBalance := currentBalance - pointsCost
            let db1 : DB :=
              { db with
                  balances := upsertBalance db.balances tg newBalance
                  txs := db.txs ++
                    [{ telegram_user_id := tg, delta := -pointsCost
                       reason := "subscription_extend", source := "points"
                       related_subscription_id := some sub.id, level := none }] }
            let newExpires := max sub.expires_at now + durationDays * 86400
            let db2 := update_subscription_expiration db1 sub.id newExpires
              ("points_extend_" ++ code)
            (db2, ⟨true, none, some sub.id, some newExpires, some newBalance⟩)

/-! ### Referral engine (`db.py`) -/

/-- `db.get_referrer_telegram_id`: the single `referrals` row of a referred
user. -/
def lookupReferrer (db : DB) (tg : Int) : Option Int :=
  (db.referrals.find? (fun p => p.1 == tg)).map (fun p => p.2)

/-- `db.get_referral_upline_chain`: follow `referred → referrer` edges for at
most `fuel` hops, stopping at the first missing link. -/
def get_referral_upline_chain (db : DB) (tg : Int) : Nat → List Int
  | 0 => []
  | fuel + 1 =>
    match lookupReferrer db tg with
    | none => []
    | some r => r :: get_referral_upline_chain db r fuel

/-- `db.get_referral_levels`, looked up at one level (the level column is the
table's key). -/
def levelCfg (db : DB) (level : Nat) : Option RefLevelCfg :=
  db.refLevels.find? (fun c => c.level == level)

/-- `db.is_user_referral_blocked`: the profile flag, false when no row. -/
def is_user_referral_blocked (db : DB) (tg : Int) : Bool :=
  match db.profiles.find? (fun p => p.1 == tg) with
  | some p => p.2
  | none => false

/-- Tariff lookup of `db.get_tariff_for_referral_by_code` (`WHERE code = %s
AND is_active LIMIT 1`). -/
def get_tariff_for_referral_by_code (db : DB) (code : String) : Option Tariff :=
  db.tariffs.find? (fun t => t.code == code && t.is_active)

/-- Rational division, written through `Rat.divInt` so that it evaluates
inside the kernel (the `Div ℚ` instance goes through the irreducible
`Rat.inv`); `ratDiv_eq_div` below shows it is ordinary division. -/
def ratDiv (a b : ℚ) : ℚ := Rat.divInt (a.num * b.den) (a.den * b.num)

/-- An integer times a rational, written through `Rat.divInt` so that it
evaluates inside the kernel; `intMulRat_eq` below shows it is ordinary
multiplication. -/
def intMulRat (n : Int) (q : ℚ) : ℚ := Rat.divInt (n * q.num) q.den

/-- Python's `round` on an exact rational value: round half to even, written
on the numerator and denominator (`f` is the floor, `rem2` twice the
fractional part's numerator, so the half-way tie is `rem2 = den`). -/
def pyRound (q : ℚ) : Int :=
  let f := q.num.fdiv q.den
  let rem2 := 2 * (q.num - f * q.den)
  if rem2 < (q.den : Int) then f
  else if (q.den : Int) < rem2 then f + 1
  else if f % 2 == 0 then f else f + 1

/-- The per-level bonus of `apply_referral_rewards_for_subscription`:
`int(round(base * multiplier))`. -/
def refBonus (base : Int) (multiplier : ℚ) : Int :=
  pyRound (intMulRat base multiplier)

/-- The multiplier configured for a level (0 when the level is missing). -/
def levelMultiplier (db : DB) (level : Nat) : ℚ :=
  ((levelCfg db level).map RefLevelCfg.multiplier).getD 0

/-- Does this level qualify for a credit in
`apply_referral_rewards_for_subscription`: configured, active, positive
multiplier, and a positive rounded bonus? -/
def levelQualifies (db : DB) (base : Int) (level : Nat) : Bool :=
  match levelCfg db level with
  | none => false
  | some cfg =>
      cfg.is_active && 0 < cfg.multiplier && 0 < refBonus base cfg.multiplier

/-- One credited award, as accumulated by
`apply_referral_rewards_for_subscription`. -/
structure RefAward where
  level : Nat
  referrer : Int
  bonus : Int
deriving Repr, DecidableEq

/-- The `for level_idx, referrer_id in enumerate(upline, start=1)` loop of
`apply_referral_rewards_for_subscription`: process the upline in order,
threading the database; skip unconfigured/inactive/non-positive levels,
otherwise credit the referrer through `add_points`. -/
def refRewardLoop (base : Int) (source : String) (subId : Nat) :
    DB → Nat → List Int → DB × List RefAward
  | db, _, [] => (db, [])
  | db, level, referrer :: rest =>
    if levelQualifies db base level then
      let bonus := refBonus base (levelMultiplier db level)
      let (db1, _) := add_points db referrer bonus ("ref_level_" ++ toString level)
        source (some subId) (some level) false
      let (db2, awards) := refRewardLoop base source subId db1 (level + 1) rest
      (db2, ⟨level, referrer, bonus⟩ :: awards)
    else refRewardLoop base source subId db (level + 1) rest

/-- `db.apply_referral_rewards_for_subscription`: check the payer's block
flag and the tariff, build the ≤ 5-deep upline chain, then credit each
qualifying level with `round(base * multiplier)` points. -/
def apply_referral_rewards_for_subscription (db : DB) (payer : Int) (subId : Nat)
    (tariffCode : String) (paymentSource : String) : DB × List RefAward :=
  if is_user_referral_blocked db payer then (db, [])
  else
    match get_tariff_for_referral_by_code db tariffCode with
    | none => (db, [])
    | some tariff =>
      let baseBonus := (tariff.ref_base_bonus_points).getD 0
      if !tariff.ref_enabled || baseBonus ≤ 0 then (db, [])
      else
        let upline := get_referral_upline_chain db payer 5
        if upline.isEmpty then (db, [])
        else if db.refLevels.isEmpty then (db, [])
        else refRewardLoop baseBonus paymentSource subId db 1 upline

/-! ### WireGuard peer manager (`app/wg.py`) -/

/-- The `n`-th host of `10.8.0.0/16` in ascending order (`n ∈ [1, 65534]`;
the network address `10.8.0.0` and broadcast `10.8.255.255` are not hosts). -/
def ipFromIndex (n : Nat) : String :=
  "10.8." ++ toString (n / 256) ++ "." ++ toString (n % 256)

/-- The scan loop of `wg.generate_client_ip`: walk the hosts of
`10.8.0.0/16` in ascending order starting at host `n`, skip the server
address `10.8.0.1`, return the first address not used by an active
not-yet-expired subscription.  The fuel argument counts the hosts left to
visit (`fuel = 65535 - n` at every call). -/
def genIpScan (db : DB) (now : Int) : Nat → Nat → Option String
  | 0, _ => none
  | fuel + 1, n =>
    -- `if ip == server_ip` compares `IPv4Address` objects, i.e. the host
    -- index; the server `10.8.0.1` is host 1.  `str(ip)` is `ipFromIndex n`.
    if n == 1 then genIpScan db now fuel (n + 1)
    else if is_vpn_ip_used db (ipFromIndex n) now then genIpScan db now fuel (n + 1)
    else some (ipFromIndex n)

/-- `wg.generate_client_ip`: scan hosts `1 .. 65534` of `10.8.0.0/16`
(`none` models the `No free VPN IPs` error). -/
def generate_client_ip (db : DB) (now : Int) : Option String :=
  genIpScan db now 65534 1

/-! ### Common controller pieces -/

/-- The hard-coded `TARIFF_DAYS` table shared by the YooKassa and Heleket
webhook runners. -/
def TARIFF_DAYS : List (String × Int) :=
  [("1m", 30), ("3m", 90), ("6m", 180), ("1y", 365), ("forever", 3650)]

/-- `TARIFF_DAYS.get(tariff_code)`. -/
def tariffDaysFor (code : String) : Option Int :=
  (TARIFF_DAYS.find? (fun p => p.1 == code)).map (fun p => p.2)

/-- The extension formula of both webhook runners:
`base_dt = old_expires_at if old_expires_at > now else now;
new_expires_at = base_dt + timedelta(days = days)`. -/
def extendedExpiry (oldExpires now days : Int) : Int :=
  (if now < oldExpires then oldExpires else now) + days * 86400

/-- `tg_bot_runner.deactivate_existing_active_subscriptions`: deactivate every
active not-yet-expired subscription of the user (each with
`last_event_name := reason`); the WireGuard peers are removed alongside. -/
def deactivate_existing_active_subscriptions (db : DB) (tg : Int) (reason : String)
    (now : Int) : DB :=
  (get_active_subscriptions_for_telegram db tg now).foldl
    (fun d s => (deactivate_subscription_by_id d s.id reason).1) db

/-! ### YooKassa webhook (`app/yookassa_webhook_runner.py`)

`handle_yookassa_success` models the `payment.succeeded` path from the point
where the webhook JSON has been parsed and the out-of-band API re-check has
passed.  `fetchCreatedAt` stands for `fetch_payment_from_yookassa` followed by
`parse_yookassa_datetime` on `created_at` (`none` when the fetch or the parse
fails); `wgOk` is whether `wg set ... peer ...` succeeds inside `wg.add_peer`
(`ensure_wg_up` plus `run_cmd`); the fresh keypair of `wg.generate_keypair`
is the `freshPriv`/`freshPub` pair. -/

/-- The stale-replay guard: the target subscription already carries a
*different* payment id and the API says that payment is not older than the
current one. -/
def yookassaStaleGuard (ysub : Subscription) (paymentId : String)
    (apiCreatedAt : Option Int) (fetchCreatedAt : String → Option Int) : Bool :=
  let lastEvent := ysub.last_event_name
  if lastEvent.startsWith "yookassa_payment_succeeded_" then
    let lastPaymentId := lastEvent.drop "yookassa_payment_succeeded_".length
    if lastPaymentId != "" && lastPaymentId != paymentId then
      match fetchCreatedAt lastPaymentId, apiCreatedAt with
      | some lastCreated, some current => current ≤ lastCreated
      | _, _ => false
    else false
  else false

/-- Is this active subscription the YooKassa one
(`channel_name == "YooKassa" or period.startswith("yookassa_")`)? -/
def isYookassaSub (s : Subscription) : Bool :=
  s.channel_name == "YooKassa" || s.period.startsWith "yookassa_"

/-- `handle_yookassa_webhook`, `payment.succeeded` branch after verification:
idempotency gate, then extend the active YooKassa subscription, or deactivate
all actives and provision a fresh peer + row. -/
def handle_yookassa_success (db : DB) (now : Int) (paymentId : String) (tg : Int)
    (tariffCode : String) (apiCreatedAt : Option Int)
    (fetchCreatedAt : String → Option Int) (freshPriv freshPub : String)
    (wgOk : Bool) : DB × Response :=
  match tariffDaysFor tariffCode with
  | none => (db, okResponse "ok (unknown tariff)")
  | some days =>
    let eventName := "yookassa_payment_succeeded_" ++ paymentId
    if subscription_exists_by_event db eventName then
      (db, okResponse "ok (already processed)")
    else
      let activeSubs := get_active_subscriptions_for_telegram db tg now
      match activeSubs.find? isYookassaSub with
      | some ysub =>
        if yookassaStaleGuard ysub paymentId apiCreatedAt fetchCreatedAt then
          (db, okResponse "ok (stale payment, not extended)")
        else
          let newExpires := extendedExpiry ysub.expires_at now days
          (update_subscription_expiration db ysub.id newExpires eventName,
           okResponse "ok (extended)")
      | none =>
        let expiresAt := now + days * 86400
        let db1 := deactivate_existing_active_subscriptions db tg
          "auto_replace_yookassa" now
        match generate_client_ip db1 now with
        | none => (db1, okResponse "ok (wg gen error)")
        | some clientIp =>
          if !wgOk then (db1, okResponse "ok (wg add error)")
          else
            let (db2, _) := insert_subscription db1 tg ("yookassa_" ++ tariffCode)
              "YooKassa" clientIp freshPriv freshPub expiresAt eventName
            (db2, okResponse "ok")

/-- Python's `int()` on an exact rational: truncation towards zero
(`Int.tdiv` of the numerator by the positive denominator). -/
def pyTrunc (q : ℚ) : Int := q.num.tdiv q.den

/-- Floor of `log10` (0 at 0), with a structural fuel argument so the kernel
can evaluate it. -/
def natLog10F : Nat → Nat → Nat
  | 0, _ => 0
  | fuel + 1, n => if n < 10 then 0 else natLog10F fuel (n / 10) + 1

/-- `⌊log10 n⌋` for `n ≥ 1`; `n` itself bounds the recursion depth. -/
def natLog10 (n : Nat) : Nat := natLog10F n n

/-- The value of an exact rational rounded to 28 significant decimal digits,
half to even: the arithmetic of Python's `decimal` module at its default
context (`prec = 28`, `ROUND_HALF_EVEN`), used by the refund branch for
`Decimal(refund) / Decimal(total)` and `days_for_tariff * share`.  A value
already representable in 28 significant digits is returned unchanged.  For
`|q| ≥ 1` the adjusted exponent `e` is `⌊log10 ⌊|q|⌋⌋`; for `0 < |q| < 1` it
is `-(⌊log10 ((den − 1) / num)⌋ + 1)`, so the scale is `10 ^ (27 − e)` and
the coefficient is the half-even rounding of `q` times that scale. -/
def decRound28 (q : ℚ) : ℚ :=
  if q = 0 then 0
  else
    let a := q.num.natAbs
    let b := q.den
    if b ≤ a then
      let e := natLog10 (a / b)
      if e ≤ 27 then
        let s := 27 - e
        Rat.divInt (pyRound (Rat.divInt (q.num * 10 ^ s) (b : Int))) (10 ^ s)
      else
        let s := e - 27
        Rat.divInt (pyRound (Rat.divInt q.num ((b : Int) * 10 ^ s)) * 10 ^ s) 1
    else
      let s := 28 + natLog10 ((b - 1) / a)
      Rat.divInt (pyRound (Rat.divInt (q.num * 10 ^ s) (b : Int))) (10 ^ s)

/-- `Decimal` division at the default 28-digit context: the exact quotient,
correctly rounded half to even. -/
def decDiv (a b : ℚ) : ℚ := decRound28 (ratDiv a b)

/-- A Python `int` times a `Decimal` at the default 28-digit context: the
exact product, rounded when it needs more than 28 significant digits. -/
def decMulInt (n : Int) (q : ℚ) : ℚ := decRound28 (intMulRat n q)

/-- The `days_to_revert` computation of the `refund.succeeded` branch:
full tariff when either amount is missing, otherwise
`int(days_for_tariff * min(refund/total, 1))` evaluated in `Decimal`
arithmetic (quotient and product each rounded to 28 significant digits,
half to even), bumped to 1 when a positive refund would round down to
nothing. -/
def daysToRevert (daysForTariff : Int) (refundAmount totalAmount : ℚ) : Int :=
  if totalAmount ≤ 0 || refundAmount ≤ 0 then daysForTariff
  else
    let share := decDiv refundAmount totalAmount
    let share := if 1 < share then 1 else share
    let d := pyTrunc (decMulInt daysForTariff share)
    if d ≤ 0 && 0 < refundAmount then 1 else d

/-- The tariff-days resolution of the refund branch: the original payment's
`tariff_code` when it is in `TARIFF_DAYS`, else the `yookassa_` suffix of the
subscription's period tag. -/
def refundDaysForTariff (tariffCodeFromPayment : Option String)
    (sub : Subscription) : Option Int :=
  match tariffCodeFromPayment.bind tariffDaysFor with
  | some d => some d
  | none =>
    if sub.period.startsWith "yookassa_" then
      tariffDaysFor (sub.period.drop "yookassa_".length)
    else none

/-- `handle_yookassa_webhook`, `refund.succeeded` branch, from the point where
the original payment was fetched from the API (`apiTgId` is the
`telegram_user_id` of its metadata): idempotency by refund id, find the
subscription created by the original payment (falling back to the user's
active YooKassa subscription), shorten its expiry by `daysToRevert` days —
deactivating it outright when the result is in the past or when the tariff
days cannot be determined. -/
def handle_yookassa_refund (db : DB) (now : Int) (refundId origPaymentId : String)
    (refundAmount totalAmount : ℚ) (tariffCodeFromPayment : Option String)
    (apiTgId : Option Int) : DB × Response :=
  let refundEventName := "yookassa_refund_succeeded_" ++ refundId
  if subscription_exists_by_event db refundEventName then
    (db, okResponse "ok (refund already processed)")
  else
    let successEventName := "yookassa_payment_succeeded_" ++ origPaymentId
    let sub? :=
      match get_subscription_by_event db successEventName with
      | some s => some s
      | none =>
        match apiTgId with
        | none => none
        | some tid => (get_active_subscriptions_for_telegram db tid now).find? isYookassaSub
    match sub? with
    | none => (db, okResponse "ok (refund handled)")
    | some sub =>
      match refundDaysForTariff tariffCodeFromPayment sub with
      | none =>
        ((deactivate_subscription_by_id db sub.id refundEventName).1,
         okResponse "ok (refund handled, fallback deactivate)")
      | some daysForTariff =>
        let d := daysToRevert daysForTariff refundAmount totalAmount
        let newExpires := sub.expires_at - d * 86400
        if newExpires ≤ now then
          ((deactivate_subscription_by_id db sub.id refundEventName).1,
           okResponse "ok (refund handled)")
        else
          (update_subscription_expiration db sub.id newExpires refundEventName,
           okResponse "ok (refund handled)")

/-! ### Heleket webhook (`app/heleket_webhook_runner.py`) -/

/-- Is this active subscription the Heleket one? -/
def isHeleketSub (s : Subscription) : Bool :=
  s.channel_name == "Heleket" || s.period.startsWith "heleket_"

/-- `handle_heleket_webhook` after signature/IP verification, for a final
`paid`/`paid_over` payment: idempotency by uuid, extend the Heleket
subscription (falling back to the longest-lived active subscription of any
channel), or provision a fresh peer + row. -/
def handle_heleket_paid (db : DB) (now : Int) (uuid : String) (tg : Int)
    (tariffCode : String) (freshPriv freshPub : String) (wgOk : Bool) :
    DB × Response :=
  match tariffDaysFor tariffCode with
  | none => (db, okResponse "ok (unknown tariff)")
  | some days =>
    let eventName := "heleket_payment_paid_" ++ uuid
    if subscription_exists_by_event db eventName then
      (db, okResponse "ok (already processed)")
    else
      let activeSubs := get_active_subscriptions_for_telegram db tg now
      let baseSub? :=
        match activeSubs.find? isHeleketSub with
        | some s => some s
        | none => activeSubs.head?
      match baseSub? with
      | some baseSub =>
        let newExpires := extendedExpiry baseSub.expires_at now days
        (update_subscription_expiration db baseSub.id newExpires eventName,
         okResponse "ok (extended)")
      | none =>
        let expiresAt := now + days * 86400
        let db1 := deactivate_existing_active_subscriptions db tg
          "auto_replace_heleket" now
        match generate_client_ip db1 now with
        | none => (db1, okResponse "ok (wg gen error)")
        | some clientIp =>
          if !wgOk then (db1, okResponse "ok (wg add error)")
          else
            let (db2, _) := insert_subscription db1 tg ("heleket_" ++ tariffCode)
              "Heleket" clientIp freshPriv freshPub expiresAt eventName
            (db2, okResponse "ok")

/-! ### Referral trial and points payment (`app/tg_bot_runner.py`) -/

/-- `try_give_referral_trial_7d`: skip when an active subscription exists or a
trial was already given, otherwise deactivate leftovers and provision a fresh
7-day row stamped `referral_free_trial_7d`. -/
def try_give_referral_trial_7d (db : DB) (now : Int) (tg : Int)
    (freshPriv freshPub : String) (wgOk : Bool) : DB :=
  if (get_latest_subscription_for_telegram db tg now).isSome then db
  else if has_referral_trial_subscription db tg then db
  else
    let db1 := deactivate_existing_active_subscriptions db tg
      "auto_replace_referral_trial_7d" now
    match generate_client_ip db1 now with
    | none => db1
    | some clientIp =>
      if !wgOk then db1
      else
        let expiresAt := now + 7 * 86400
        (insert_subscription db1 tg "referral_trial_7d" "Referral trial" clientIp
          freshPriv freshPub expiresAt "referral_free_trial_7d").1

/-- What the points-payment callback did, for inspection by theorems. -/
structure PointsPayOutcome where
  performed : Bool
  configSent : Bool
  usedPriv : String
  usedPub : String
  usedIp : String
deriving Repr, DecidableEq

/-- `points_tariff_callback` (the provisioning core, after the tariff button
was resolved to `points_cost`/`duration_days`): check the balance; look up the
latest *active not-yet-expired* subscription; when it exists and carries a
keypair + ip, re-add that peer and skip re-sending the config, otherwise
generate a fresh peer; insert the row extending from
`max(latest.expires_at, now)` and charge the points. -/
def points_tariff_payment (db : DB) (now : Int) (tg : Int) (tariffCode : String)
    (pointsCost durationDays : Int) (freshPriv freshPub : String) (wgOk : Bool) :
    DB × PointsPayOutcome :=
  let balance := balanceOf db tg
  if balance < pointsCost then (db, ⟨false, false, "", "", ""⟩)
  else
    let latestSub? := get_latest_subscription_for_telegram db tg now
    let baseExpiresAt :=
      match latestSub? with
      | some s => max s.expires_at now
      | none => now
    let reuse? :=
      match latestSub? with
      | some s =>
        if s.wg_private_key != "" && s.wg_public_key != "" && s.vpn_ip != "" then
          some (s.wg_private_key, s.wg_public_key, s.vpn_ip)
        else none
      | none => none
    let db1 := deactivate_existing_active_subscriptions db tg
      "auto_replace_points_payment" now
    let provision? : Option (String × String × String × Bool) :=
      match reuse? with
      | some (priv, pub, ip) => if wgOk then some (priv, pub, ip, false) else none
      | none =>
        match generate_client_ip db1 now with
        | none => none
        | some ip => if wgOk then some (freshPriv, freshPub, ip, true) else none
    match provision? with
    | none => (db1, ⟨false, false, "", "", ""⟩)
    | some (priv, pub, ip, sendConfig) =>
      let expiresAt := baseExpiresAt + durationDays * 86400
      let (db2, subId) := insert_subscription db1 tg ("points_" ++ tariffCode)
        "Points balance" ip priv pub expiresAt ("points_payment_" ++ tariffCode)
      let (db3, _) := add_points db2 tg (-pointsCost) "pay_tariff_points" "points"
        (some subId) none false
      (db3, ⟨true, sendConfig, priv, pub, ip⟩)

/-! ### The IP-allocation advisory lock (`db.py` lines 30–57, `wg.py`,
`insert_subscription`)

`held` is whether this task's context owns the Postgres advisory lock;
`count` is the reference count stored in the task-local context
(`_ip_lock_ctx`); the context exists exactly when `count > 0`. -/

structure LockState where
  held : Bool
  count : Nat
deriving Repr, DecidableEq

/-- `db.acquire_ip_allocation_lock`: bump the count when the context already
exists, otherwise take the advisory lock and create the context. -/
def acquire_ip_allocation_lock (ls : LockState) : LockState :=
  if ls.count > 0 then { ls with count := ls.count + 1 }
  else { held := true, count := 1 }

/-- `db.release_ip_allocation_lock`: no-op without a context; decrement, and
unlock + drop the context when the count reaches zero. -/
def release_ip_allocation_lock (ls : LockState) : LockState :=
  if ls.count == 0 then ls
  else if ls.count == 1 then { held := false, count := 0 }
  else { ls with count := ls.count - 1 }

/-- `wg.generate_client_ip` with its locking behaviour: acquire, scan; on
success the lock is kept (released later by `insert_subscription`); on the
exhausted-pool exception the `except` clause releases it before re-raising. -/
def generate_client_ip_locked (db : DB) (ls : LockState) (now : Int) :
    LockState × Option String :=
  let ls1 := acquire_ip_allocation_lock ls
  match generate_client_ip db now with
  | some ip => (ls1, some ip)
  | none => (release_ip_allocation_lock ls1, none)

/-- `wg.add_peer` locking behaviour: `ensure_wg_up()` runs *before* the
`try` block, so its failure propagates without touching the lock; a failing
`run_cmd(["wg", "set", ...])` releases the lock and re-raises. -/
def add_peer_locked (ls : LockState) (wgUpOk wgSetOk : Bool) : LockState × Bool :=
  if !wgUpOk then (ls, false)
  else if !wgSetOk then (release_ip_allocation_lock ls, false)
  else (ls, true)

/-- `db.insert_subscription` locking behaviour: the `finally` clause releases
the lock whether the insert commits or raises. -/
def insert_subscription_locked (ls : LockState) (_insertOk : Bool) : LockState :=
  release_ip_allocation_lock ls

/-- The lock trace of one provisioning attempt as the create paths perform it:
`generate_client_ip`, then `wg.add_peer`, then `insert_subscription`; every
failure aborts the attempt there (the webhook handler catches the exception
and returns). -/
def provisionLockTrace (db : DB) (now : Int) (wgUpOk wgSetOk insertOk : Bool) :
    LockState :=
  let ls0 : LockState := ⟨false, 0⟩
  let (ls1, ip?) := generate_client_ip_locked db ls0 now
  match ip? with
  | none => ls1
  | some _ =>
    let (ls2, ok) := add_peer_locked ls1 wgUpOk wgSetOk
    if !ok then ls2
    else insert_subscription_locked ls2 insertOk

/-! ## Proofs

### The points ledger (claim C3 infrastructure) -/

/-- Sum of the ledger deltas of one user. -/
def txSum (db : DB) (tg : Int) : Int :=
  ((db.txs.filter (fun t => t.telegram_user_id == tg)).map PointsTx.delta).sum

/-- The ledger invariant: every user's stored balance equals the sum of their
ledger deltas. -/
def PointsLedgerInv (db : DB) : Prop :=
  ∀ tg, balanceOf db tg = txSum db tg

theorem find?_upsertBalance_self (l : List (Int × Int)) (tg v : Int) :
    (upsertBalance l tg v).find? (fun p => p.1 == tg) = some (tg, v) := by
  induction l with
  | nil => simp [upsertBalance, List.find?]
  | cons p rest ih =>
    by_cases h : p.1 == tg
    · simp [upsertBalance, h, List.find?]
    · simp only [upsertBalance, h, if_false, Bool.false_eq_true]
      rw [List.find?_cons_of_neg _ (by simpa using h)]
      exact ih

theorem find?_upsertBalance_other (l : List (Int × Int)) (tg v tg' : Int)
    (h : tg' ≠ tg) :
    (upsertBalance l tg v).find? (fun p => p.1 == tg') =
      l.find? (fun p => p.1 == tg') := by
  induction l with
  | nil =>
    simp only [upsertBalance, List.find?_nil]
    rw [List.find?_cons_of_neg _ (by simp [Ne.symm h])]
    simp [List.find?]
  | cons p rest ih =>
    by_cases h1 : p.1 == tg
    · have hp : (p.1 == tg') = false := by
        have : p.1 = tg := by simpa using h1
        simp [this, Ne.symm h]
      simp only [upsertBalance, h1, if_true]
      rw [List.find?_cons_of_neg _ (by simp [Ne.symm h]),
        List.find?_cons_of_neg _ (by simp [hp])]
    · simp only [upsertBalance, h1, if_false, Bool.false_eq_true]
      by_cases h2 : p.1 == tg'
      · rw [List.find?_cons_of_pos _ (by simpa using h2),
          List.find?_cons_of_pos _ (by simpa using h2)]
      · rw [List.find?_cons_of_neg _ (by simpa using h2),
          List.find?_cons_of_neg _ (by simpa using h2)]
        exact ih

theorem balanceOf_upsert_self (db : DB) (l : List (Int × Int)) (tg v : Int)
    (h : db.balances = upsertBalance l tg v) : balanceOf db tg = v := by
  simp [balanceOf, h, find?_upsertBalance_self]

theorem balanceOf_upsert_other (db db' : DB) (tg v tg' : Int)
    (h : db'.balances = upsertBalance db.balances tg v) (hne : tg' ≠ tg) :
    balanceOf db' tg' = balanceOf db tg' := by
  simp [balanceOf, h, find?_upsertBalance_other _ _ _ _ hne]

theorem txSum_append (db db' : DB) (t : PointsTx) (tg : Int)
    (h : db'.txs = db.txs ++ [t]) :
    txSum db' tg = txSum db tg + (if t.telegram_user_id == tg then t.delta else 0) := by
  by_cases ht : t.telegram_user_id == tg
  · simp [txSum, h, List.filter_append, ht]
  · simp [txSum, h, List.filter_append, ht]

theorem txSum_eq_of_txs_eq (db db' : DB) (tg : Int) (h : db'.txs = db.txs) :
    txSum db' tg = txSum db tg := by
  simp [txSum, h]

theorem balanceOf_eq_of_balances_eq (db db' : DB) (tg : Int)
    (h : db'.balances = db.balances) : balanceOf db' tg = balanceOf db tg := by
  simp [balanceOf, h]

theorem balanceOf_update_expiration (db : DB) (sid : Nat) (exp : Int) (name : String)
    (tg : Int) :
    balanceOf (update_subscription_expiration db sid exp name) tg = balanceOf db tg :=
  rfl

theorem txSum_update_expiration (db : DB) (sid : Nat) (exp : Int) (name : String)
    (tg : Int) :
    txSum (update_subscription_expiration db sid exp name) tg = txSum db tg :=
  rfl

/-- `add_points` preserves the ledger invariant. -/
theorem add_points_ledgerInv (db : DB) (tg delta : Int) (reason source : String)
    (relatedSub : Option Nat) (level : Option Nat) (allowNegative : Bool)
    (h : PointsLedgerInv db) :
    PointsLedgerInv (add_points db tg delta reason source relatedSub level
      allowNegative).1 := by
  unfold add_points
  by_cases h0 : delta == 0
  · simpa [h0] using h
  · simp only [h0, Bool.false_eq_true, if_false]
    by_cases hneg : !allowNegative && balanceOf db tg + delta < 0
    · simpa [hneg] using h
    · simp only [hneg, if_false, Bool.false_eq_true]
      intro tg'
      by_cases htg : tg' = tg
      · subst htg
        rw [balanceOf_upsert_self _ db.balances tg' (balanceOf db tg' + delta) rfl,
          txSum_append db _ _ tg' rfl]
        simp [h tg']
      · rw [balanceOf_upsert_other db _ tg (balanceOf db tg + delta) tg' rfl htg,
          txSum_append db _ _ tg' rfl]
        have : (tg == tg') = false := by simp [Ne.symm htg]
        simp [this, h tg']

/-- `pay_subscription_with_points` preserves the ledger invariant. -/
theorem pay_points_ledgerInv (db : DB) (tg : Int) (code : String) (now : Int)
    (h : PointsLedgerInv db) :
    PointsLedgerInv (pay_subscription_with_points db tg code now).1 := by
  unfold pay_subscription_with_points
  by_cases hc : code == ""
  · simpa [hc] using h
  · simp only [hc, Bool.false_eq_true, if_false]
    cases htar : findPointsTariff db code with
    | none => simpa using h
    | some t =>
      simp only
      by_cases hbad : (t.points_cost).getD 0 ≤ 0 || (t.duration_days).getD 0 ≤ 0
      · simpa [hbad] using h
      · simp only [hbad, if_false, Bool.false_eq_true]
        cases hsub : get_latest_subscription_for_telegram db tg now with
        | none => simpa using h
        | some sub =>
          simp only
          by_cases hbal : balanceOf db tg < (t.points_cost).getD 0
          · simpa [hbal] using h
          · simp only [hbal, if_false, Bool.false_eq_true]
            intro tg'
            rw [balanceOf_update_expiration, txSum_update_expiration]
            by_cases htg : tg' = tg
            · subst htg
              rw [balanceOf_upsert_self _ db.balances tg'
                  (balanceOf db tg' - (t.points_cost).getD 0) rfl,
                txSum_append db _ _ tg' rfl]
              simp [h tg']
              ring
            · rw [balanceOf_upsert_other db _ tg _ tg' rfl htg,
                txSum_append db _ _ tg' rfl]
              have hne : (tg == tg') = false := by simp [Ne.symm htg]
              simp [hne, h tg']

/-- A points operation: `db.add_points` with any sign, or
`db.pay_subscription_with_points`. -/
inductive PointsOp where
  | add (tg delta : Int) (reason source : String) (relatedSub : Option Nat)
      (level : Option Nat) (allowNegative : Bool)
  | pay (tg : Int) (code : String) (now : Int)

/-- Apply one points operation (discarding the result record). -/
def applyPointsOp (db : DB) : PointsOp → DB
  | .add tg delta reason source relatedSub level allowNegative =>
    (add_points db tg delta reason source relatedSub level allowNegative).1
  | .pay tg code now => (pay_subscription_with_points db tg code now).1

/-- Run a sequence of points operations. -/
def runPointsOps (db : DB) : List PointsOp → DB
  | [] => db
  | op :: rest => runPointsOps (applyPointsOp db op) rest

theorem runPointsOps_ledgerInv (db : DB) (ops : List PointsOp)
    (h : PointsLedgerInv db) : PointsLedgerInv (runPointsOps db ops) := by
  induction ops generalizing db with
  | nil => exact h
  | cons op rest ih =>
    refine ih _ ?_
    cases op with
    | add tg delta reason source relatedSub level allowNegative =>
      exact add_points_ledgerInv db tg delta reason source relatedSub level
        allowNegative h
    | pay tg code now => exact pay_points_ledgerInv db tg code now h

theorem emptyDB_ledgerInv : PointsLedgerInv emptyDB := by
  intro tg; simp [balanceOf, txSum, emptyDB]

/-- C3: for every telegram user, after any sequence of points operations
(`add_points` with any sign, `pay_subscription_with_points`) starting from the
initial database, the stored `user_points.balance` equals the sum of the
user's `user_points_transactions.delta` values: each operation writes the new
balance and appends the matching ledger row in the same transaction. -/
theorem points_balance_eq_ledger_sum (ops : List PointsOp) (tg : Int) :
    balanceOf (runPointsOps emptyDB ops) tg = txSum (runPointsOps emptyDB ops) tg :=
  runPointsOps_ledgerInv emptyDB ops emptyDB_ledgerInv tg

/-! ### Claim C4: the extension arithmetic -/

/-- C4: a payment that extends an existing subscription sets the new expiry to
`max(old_expires_at, now) + days`; two successive extensions by `d₁` and `d₂`
days, both applied while the expiry is in the future, add exactly
`d₁ + d₂` days, independent of their order. -/
theorem extend_twice_adds_days (e t₁ t₂ d₁ d₂ : Int)
    (h₁ : t₁ < e)
    (h₂ : t₂ < extendedExpiry e t₁ d₁)
    (h₂' : t₂ < extendedExpiry e t₁ d₂) :
    extendedExpiry e t₁ d₁ = max e t₁ + d₁ * 86400 ∧
    extendedExpiry (extendedExpiry e t₁ d₁) t₂ d₂ = e + (d₁ + d₂) * 86400 ∧
    extendedExpiry (extendedExpiry e t₁ d₂) t₂ d₁ = e + (d₁ + d₂) * 86400 := by
  simp only [extendedExpiry, if_pos h₁] at *
  rw [max_eq_left h₁.le]
  refine ⟨rfl, ?_, ?_⟩
  · rw [if_pos h₂]; ring
  · rw [if_pos h₂']; ring

/-- Witness for C4 at concrete inputs. -/
theorem extend_twice_adds_days_witness :
    extendedExpiry (extendedExpiry 100 0 1) 50 2 = 100 + (1 + 2) * 86400 :=
  (extend_twice_adds_days 100 0 50 1 2 (by decide) (by decide) (by decide)).2.1

/-! ### Claim C7: the IP allocator -/

theorem genIpScan_succ (db : DB) (now : Int) (fuel n : Nat) :
    genIpScan db now (fuel + 1) n =
      if n == 1 then genIpScan db now fuel (n + 1)
      else if is_vpn_ip_used db (ipFromIndex n) now then genIpScan db now fuel (n + 1)
      else some (ipFromIndex n) := rfl

theorem genIpScan_eq_none_iff (db : DB) (now : Int) :
    ∀ (fuel n : Nat), genIpScan db now fuel n = none ↔
      ∀ i, i < fuel → (n + i = 1 ∨ is_vpn_ip_used db (ipFromIndex (n + i)) now = true) := by
  intro fuel
  induction fuel with
  | zero => intro n; simp [genIpScan]
  | succ fuel ih =>
    intro n
    rw [genIpScan_succ]
    by_cases h1 : n == 1
    · have hn : n = 1 := by simpa using h1
      rw [if_pos h1, ih]
      constructor
      · intro h i hi
        match i, hi with
        | 0, _ => exact Or.inl (by omega)
        | j + 1, hj =>
          have := h j (by omega)
          rcases this with h' | h'
          · left; omega
          · right; rw [show n + (j + 1) = n + 1 + j by omega]; exact h'
      · intro h i hi
        have := h (i + 1) (by omega)
        rcases this with h' | h'
        · omega
        · right; rw [show n + 1 + i = n + (i + 1) by omega]; exact h'
    · rw [if_neg (by simpa using h1)]
      have hn : n ≠ 1 := by simpa using h1
      by_cases h2 : is_vpn_ip_used db (ipFromIndex n) now
      · rw [if_pos h2, ih]
        constructor
        · intro h i hi
          match i, hi with
          | 0, _ => exact Or.inr (by simpa using h2)
          | j + 1, hj =>
            have := h j (by omega)
            rcases this with h' | h'
            · left; omega
            · right; rw [show n + (j + 1) = n + 1 + j by omega]; exact h'
        · intro h i hi
          have := h (i + 1) (by omega)
          rcases this with h' | h'
          · omega
          · right; rw [show n + 1 + i = n + (i + 1) by omega]; exact h'
      · rw [if_neg h2]
        constructor
        · intro h; exact absurd h (by simp)
        · intro h
          exfalso
          have h0 := h 0 (by omega)
          rw [Nat.add_zero] at h0
          rcases h0 with h' | h'
          · exact hn h'
          · exact h2 h'

theorem genIpScan_eq_some (db : DB) (now : Int) :
    ∀ (fuel n : Nat) (ip : String), genIpScan db now fuel n = some ip →
      ∃ i, i < fuel ∧ ip = ipFromIndex (n + i) ∧ n + i ≠ 1 ∧
        is_vpn_ip_used db ip now = false ∧
        ∀ j, j < i → (n + j = 1 ∨ is_vpn_ip_used db (ipFromIndex (n + j)) now = true) := by
  intro fuel
  induction fuel with
  | zero => intro n ip h; simp [genIpScan] at h
  | succ fuel ih =>
    intro n ip h
    rw [genIpScan_succ] at h
    by_cases h1 : n == 1
    · rw [if_pos h1] at h
      have hn : n = 1 := by simpa using h1
      obtain ⟨i, hi, hip, hne, hused, hprev⟩ := ih (n + 1) ip h
      refine ⟨i + 1, by omega, by rw [show n + (i + 1) = n + 1 + i by omega]; exact hip,
        by omega, hused, ?_⟩
      intro j hj
      match j, hj with
      | 0, _ => exact Or.inl (by omega)
      | k + 1, hk =>
        have := hprev k (by omega)
        rcases this with h' | h'
        · left; omega
        · right; rw [show n + (k + 1) = n + 1 + k by omega]; exact h'
    · rw [if_neg (by simpa using h1)] at h
      have hn : n ≠ 1 := by simpa using h1
      by_cases h2 : is_vpn_ip_used db (ipFromIndex n) now
      · rw [if_pos h2] at h
        obtain ⟨i, hi, hip, hne, hused, hprev⟩ := ih (n + 1) ip h
        refine ⟨i + 1, by omega, by rw [show n + (i + 1) = n + 1 + i by omega]; exact hip,
          by omega, hused, ?_⟩
        intro j hj
        match j, hj with
        | 0, _ => exact Or.inr (by simpa using h2)
        | k + 1, hk =>
          have := hprev k (by omega)
          rcases this with h' | h'
          · left; omega
          · right; rw [show n + (k + 1) = n + 1 + k by omega]; exact h'
      · rw [if_neg h2] at h
        refine ⟨0, by omega, by simpa using h.symm, by omega, ?_, by omega⟩
        rw [← Option.some_inj.mp h]
        simpa using h2

theorem is_vpn_ip_used_eq_false_of_no_active (db : DB) (now : Int)
    (h : ∀ s ∈ db.subs, s.active = true → s.expires_at ≤ now) (ip : String) :
    is_vpn_ip_used db ip now = false := by
  rw [is_vpn_ip_used]
  rw [List.any_eq_false]
  intro s hs
  simp only [Bool.and_eq_true, beq_iff_eq, decide_eq_true_eq, not_and]
  rintro ⟨_, hact⟩
  have := h s hs hact
  omega

/-- C7: the IP allocator scans `10.8.0.0/16` in ascending host order, skips
the server host `10.8.0.1` (host index 1), and returns the first address not
held by any active not-yet-expired subscription; with no such subscription it
returns `10.8.0.2`; it fails exactly when every allocatable host address
(hosts 2 to 65534) is taken. -/
theorem generate_client_ip_spec (db : DB) (now : Int) :
    ((∀ s ∈ db.subs, s.active = true → s.expires_at ≤ now) →
        generate_client_ip db now = some "10.8.0.2") ∧
    (∀ ip, generate_client_ip db now = some ip →
        ∃ n, 2 ≤ n ∧ n ≤ 65534 ∧ ip = ipFromIndex n ∧
          is_vpn_ip_used db ip now = false ∧
          ∀ m, 2 ≤ m → m < n → is_vpn_ip_used db (ipFromIndex m) now = true) ∧
    (generate_client_ip db now = none ↔
        ∀ n, 2 ≤ n → n ≤ 65534 → is_vpn_ip_used db (ipFromIndex n) now = true) := by
  refine ⟨?_, ?_, ?_⟩
  · intro h
    rw [generate_client_ip, show (65534 : Nat) = 65533 + 1 from rfl, genIpScan_succ]
    rw [if_pos (by decide)]
    rw [show (65533 : Nat) = 65532 + 1 from rfl, genIpScan_succ]
    rw [if_neg (by decide), if_neg (by simp [is_vpn_ip_used_eq_false_of_no_active db now h])]
    decide
  · intro ip h
    obtain ⟨i, hi, hip, hne, hused, hprev⟩ := genIpScan_eq_some db now 65534 1 ip h
    refine ⟨1 + i, by omega, by omega, hip, hused, ?_⟩
    intro m hm2 hmn
    have := hprev (m - 1) (by omega)
    rcases this with h' | h'
    · omega
    · rw [show 1 + (m - 1) = m by omega] at h'; exact h'
  · rw [generate_client_ip, genIpScan_eq_none_iff]
    constructor
    · intro h n hn2 hn
      have := h (n - 1) (by omega)
      rcases this with h' | h'
      · omega
      · rw [show 1 + (n - 1) = n by omega] at h'; exact h'
    · intro h i hi
      by_cases hz : i = 0
      · subst hz; exact Or.inl rfl
      · exact Or.inr (h (1 + i) (by omega) (by omega))

/-- Witness for C7: on the empty database the allocator yields `10.8.0.2`. -/
theorem generate_client_ip_spec_witness :
    generate_client_ip emptyDB 0 = some "10.8.0.2" :=
  (generate_client_ip_spec emptyDB 0).1 (by simp [emptyDB])

/-! ### Claim C6: refunds -/

theorem ratDiv_eq_div (a b : ℚ) : ratDiv a b = a / b := by
  rw [ratDiv, Rat.divInt_eq_div]
  push_cast
  rcases eq_or_ne b 0 with hb | hb
  · simp [hb]
  · have hbn : (b.num : ℚ) ≠ 0 := by exact_mod_cast Rat.num_ne_zero.mpr hb
    have had : (a.den : ℚ) ≠ 0 := by exact_mod_cast a.den_nz
    have hbd : (b.den : ℚ) ≠ 0 := by exact_mod_cast b.den_nz
    have ha' : (a.num : ℚ) = a * a.den := (div_eq_iff had).mp (Rat.num_div_den a)
    have hb' : (b.num : ℚ) = b * b.den := (div_eq_iff hbd).mp (Rat.num_div_den b)
    rw [div_eq_div_iff (mul_ne_zero had hbn) hb, ha', hb']
    ring

theorem intMulRat_eq (n : Int) (q : ℚ) : intMulRat n q = n * q := by
  rw [intMulRat, Rat.divInt_eq_div]
  push_cast
  rw [div_eq_iff (by exact_mod_cast q.den_nz)]
  calc (n : ℚ) * q.num = n * (q.num / q.den * q.den) := by
        rw [div_mul_cancel₀]
        exact_mod_cast q.den_nz
    _ = n * q * q.den := by rw [Rat.num_div_den]; ring

theorem pyTrunc_intCast (n : Int) : pyTrunc (n : ℚ) = n := by
  rw [pyTrunc, Rat.num_intCast, Rat.den_intCast]
  simp

theorem ratDiv_self (R : ℚ) (hR : R ≠ 0) : ratDiv R R = 1 := by
  rw [ratDiv_eq_div, div_self hR]

/-- A quotient of equal positive amounts is the exact `Decimal` 1. -/
theorem decRound28_one : decRound28 1 = 1 := by decide

/-- `TARIFF_DAYS` grants one of five day counts. -/
theorem tariffDaysFor_mem_vals (code : String) (d : Int)
    (h : tariffDaysFor code = some d) :
    d = 30 ∨ d = 90 ∨ d = 180 ∨ d = 365 ∨ d = 3650 := by
  rw [tariffDaysFor] at h
  obtain ⟨p, hp, hval⟩ := Option.map_eq_some'.mp h
  have hmem := List.mem_of_find?_eq_some hp
  have hall : ∀ q ∈ TARIFF_DAYS,
      q.2 = 30 ∨ q.2 = 90 ∨ q.2 = 180 ∨ q.2 = 365 ∨ q.2 = 3650 := by decide
  have := hall p hmem
  omega

theorem refundDaysForTariff_mem_vals (tcp : Option String) (sub : Subscription)
    (d : Int) (h : refundDaysForTariff tcp sub = some d) :
    d = 30 ∨ d = 90 ∨ d = 180 ∨ d = 365 ∨ d = 3650 := by
  rw [refundDaysForTariff] at h
  cases hb : tcp.bind tariffDaysFor with
  | some d0 =>
    rw [hb] at h
    obtain ⟨c, _, hc⟩ := Option.bind_eq_some.mp hb
    have := tariffDaysFor_mem_vals c d0 hc
    simp only [Option.some_inj] at h
    omega
  | none =>
    rw [hb] at h
    by_cases hsw : sub.period.startsWith "yookassa_" = true
    · rw [if_pos hsw] at h
      exact tariffDaysFor_mem_vals _ d h
    · rw [if_neg hsw] at h
      cases h

/-- Tariff day counts fit in 28 significant digits, so multiplying them by
the exact `Decimal` 1 is exact. -/
theorem decMulInt_one_tariff (D : Int)
    (hD : D = 30 ∨ D = 90 ∨ D = 180 ∨ D = 365 ∨ D = 3650) :
    decMulInt D 1 = (D : ℚ) := by
  rcases hD with h | h | h | h | h <;> subst h <;> decide

theorem daysToRevert_pos_amounts (D : Int) (R A : ℚ) (hA : 0 < A) (hR : 0 < R) :
    daysToRevert D R A = max (pyTrunc (decMulInt D (min (decDiv R A) 1))) 1 := by
  rw [daysToRevert, if_neg (by simp [not_le.mpr hA, not_le.mpr hR])]
  simp only []
  have hmin : (if 1 < decDiv R A then 1 else decDiv R A) = min (decDiv R A) 1 := by
    split_ifs with h
    · rw [min_eq_right h.le]
    · rw [min_eq_left (not_lt.mp h)]
  rw [hmin]
  by_cases hx : pyTrunc (decMulInt D (min (decDiv R A) 1)) ≤ 0
  · rw [if_pos (by simp [hx, hR])]
    omega
  · rw [if_neg (by simp [hx])]
    omega

/-- C6 (amended): for a `refund.succeeded` event whose original payment is
known, with total amount `A > 0`, refund amount `R > 0` and a tariff granting
`D ≥ 1` days, the expiry is reduced by
`days_to_revert = max(int(D·min(R/A, 1)), 1)` days, where the quotient `R/A`
and the product by `D` are evaluated in `Decimal` arithmetic (each rounded to
28 significant digits, half to even) before truncation, and the result is
bumped to at least one day; a full refund (`R = A`) reverts exactly `D` days;
if the resulting expiry is ≤ now the subscription is deactivated instead of
merely shortened. -/
theorem refund_shortens_subscription (db : DB) (now : Int)
    (refundId origPaymentId : String) (R A : ℚ) (tc : Option String)
    (apiTgId : Option Int) (sub : Subscription) (D : Int)
    (hidem : subscription_exists_by_event db
      ("yookassa_refund_succeeded_" ++ refundId) = false)
    (hsub : get_subscription_by_event db
      ("yookassa_payment_succeeded_" ++ origPaymentId) = some sub)
    (hdays : refundDaysForTariff tc sub = some D)
    (hA : 0 < A) (hR : 0 < R) (hD : 1 ≤ D) :
    daysToRevert D R A = max (pyTrunc (decMulInt D (min (decDiv R A) 1))) 1 ∧
    (R = A → daysToRevert D R A = D) ∧
    handle_yookassa_refund db now refundId origPaymentId R A tc apiTgId =
      (if sub.expires_at - daysToRevert D R A * 86400 ≤ now then
        ((deactivate_subscription_by_id db sub.id
            ("yookassa_refund_succeeded_" ++ refundId)).1,
          okResponse "ok (refund handled)")
      else
        (update_subscription_expiration db sub.id
            (sub.expires_at - daysToRevert D R A * 86400)
            ("yookassa_refund_succeeded_" ++ refundId),
          okResponse "ok (refund handled)")) := by
  refine ⟨daysToRevert_pos_amounts D R A hA hR, ?_, ?_⟩
  · intro hRA
    subst hRA
    have hone : decDiv R R = 1 := by
      rw [decDiv, ratDiv_self R (ne_of_gt hR), decRound28_one]
    rw [daysToRevert_pos_amounts D R R hA hR, hone, min_self,
      decMulInt_one_tariff D (refundDaysForTariff_mem_vals tc sub D hdays),
      pyTrunc_intCast]
    omega
  · unfold handle_yookassa_refund
    simp only [hidem, Bool.false_eq_true, if_false, hsub, hdays]

/-- A subscription created by YooKassa payment `p1` (30-day tariff `1m`,
paid 270, expiring at day 100). -/
def refundSub : Subscription :=
  { id := 1, telegram_user_id := 100, period := "yookassa_1m"
    channel_name := "YooKassa", vpn_ip := "10.8.0.2", wg_private_key := "privA"
    wg_public_key := "pubA", expires_at := 100 * 86400, active := true
    last_event_name := "yookassa_payment_succeeded_p1" }

/-- A database holding just `refundSub`. -/
def refundDB : DB := { emptyDB with subs := [refundSub], nextId := 2 }

/-- C6 counterexample: a refund of 100 out of 270 on a 30-day tariff reverts
`int(30·(100/270)) = 11` days, not the exact `30·(100/270) = 100/9` days the
claim states — the subscription's expiry drops by exactly 11 days; moreover
the `Decimal` rounding is visible: a refund of 60 out of 180 on the 180-day
tariff reverts 59 days (28-digit quotient `0.3333…3` times 180 is
`59.99…9`, truncated), while exact rational arithmetic would give
`int(180·(60/180)) = 60`. -/
theorem refund_days_counterexample :
    daysToRevert 30 100 270 = 11 ∧
    ((daysToRevert 30 100 270 : ℚ) ≠ 30 * (100 / 270)) ∧
    daysToRevert 180 60 180 = 59 ∧
    pyTrunc ((180 : ℚ) * min ((60 : ℚ) / 180) 1) = 60 ∧
    (handle_yookassa_refund refundDB 0 "r1" "p1" 100 270 (some "1m")
        none).1.subs.map Subscription.expires_at =
      [100 * 86400 - 11 * 86400] := by
  refine ⟨by decide, ?_, by decide, ?_, by decide⟩
  · rw [show daysToRevert 30 100 270 = 11 by decide]
    norm_num
  · rw [show min ((60 : ℚ) / 180) 1 = 1 / 3 by
      rw [min_eq_left (by norm_num)]
      norm_num]
    rw [show (180 : ℚ) * (1 / 3) = ((60 : Int) : ℚ) by norm_num]
    rw [pyTrunc_intCast]

/-- Witness for C6 at concrete inputs: a full refund (270 of 270) of the
30-day tariff reverts exactly 30 days. -/
theorem refund_shortens_subscription_witness :
    daysToRevert 30 270 270 = 30 :=
  (refund_shortens_subscription refundDB (99 * 86400) "r1" "p1" 270 270
      (some "1m") none refundSub 30 (by decide) (by decide) (by decide)
      (by norm_num) (by norm_num) (by norm_num)).2.1 rfl

/-! ### Deactivation and row-counting infrastructure (claims C1, C2, C9) -/

/-- The cumulative effect on one row of deactivating each id in `ids` in
turn. -/
def deactRowAll (ids : List Nat) (eventName : String) (r : Subscription) :
    Subscription :=
  ids.foldl (fun r sid => deactRow sid eventName r) r

/-- Number of active not-yet-expired rows of one user. -/
def countActive (db : DB) (tg : Int) (now : Int) : Nat :=
  (db.subs.filter (isActiveFor tg now)).length

/-- The subscription table is well formed: distinct row ids, all below the
next id. -/
def SubsWF (db : DB) : Prop :=
  (db.subs.map Subscription.id).Nodup ∧ ∀ s ∈ db.subs, s.id < db.nextId

theorem deactRow_id (sid : Nat) (e : String) (r : Subscription) :
    (deactRow sid e r).id = r.id := by
  rw [deactRow]; split <;> rfl

theorem deactRow_fields (sid : Nat) (e : String) (r : Subscription) :
    (deactRow sid e r).telegram_user_id = r.telegram_user_id ∧
    (deactRow sid e r).expires_at = r.expires_at ∧
    (deactRow sid e r).vpn_ip = r.vpn_ip ∧
    (deactRow sid e r).wg_private_key = r.wg_private_key ∧
    (deactRow sid e r).wg_public_key = r.wg_public_key := by
  rw [deactRow]; split <;> exact ⟨rfl, rfl, rfl, rfl, rfl⟩

theorem deactRow_of_inactive (sid : Nat) (e : String) (r : Subscription)
    (h : r.active = false) : deactRow sid e r = r := by
  rw [deactRow, if_neg]
  simp [h]

theorem deactRowAll_of_inactive (ids : List Nat) (e : String) (r : Subscription)
    (h : r.active = false) : deactRowAll ids e r = r := by
  induction ids with
  | nil => rfl
  | cons sid rest ih =>
    show deactRowAll rest e (deactRow sid e r) = r
    rw [deactRow_of_inactive sid e r h, ih]

theorem deactRowAll_active_eq (ids : List Nat) (e : String) (r : Subscription)
    (h : (deactRowAll ids e r).active = true) : deactRowAll ids e r = r := by
  induction ids with
  | nil => rfl
  | cons sid rest ih =>
    by_cases hc : r.id == sid && r.active
    · exfalso
      have hstep : deactRow sid e r =
          { r with active := false, last_event_name := e } := by
        rw [deactRow, if_pos hc]
      have : deactRowAll (sid :: rest) e r =
          { r with active := false, last_event_name := e } := by
        show deactRowAll rest e (deactRow sid e r) = _
        rw [hstep, deactRowAll_of_inactive _ _ _ rfl]
      rw [this] at h
      exact absurd h (by simp)
    · have hstep : deactRow sid e r = r := by rw [deactRow, if_neg hc]
      have heq : deactRowAll (sid :: rest) e r = deactRowAll rest e r := by
        show deactRowAll rest e (deactRow sid e r) = _
        rw [hstep]
      rw [heq] at h ⊢
      exact ih h

theorem deactRowAll_deactivates (ids : List Nat) (e : String) (r : Subscription)
    (hact : r.active = true) (hmem : r.id ∈ ids) :
    (deactRowAll ids e r).active = false := by
  induction ids with
  | nil => cases hmem
  | cons sid rest ih =>
    by_cases hc : r.id = sid
    · have hstep : deactRow sid e r =
          { r with active := false, last_event_name := e } := by
        rw [deactRow, if_pos (by simp [hc, hact])]
      show (deactRowAll rest e (deactRow sid e r)).active = false
      rw [hstep, deactRowAll_of_inactive _ _ _ rfl]
    · have hmem' : r.id ∈ rest := by
        cases List.mem_cons.mp hmem with
        | inl h => exact absurd h hc
        | inr h => exact h
      have hstep : deactRow sid e r = r := by
        rw [deactRow, if_neg (by simp [hc])]
      show (deactRowAll rest e (deactRow sid e r)).active = false
      rw [hstep]
      exact ih hmem'

/-- The database result of `deactivate_subscription_by_id` is always the
pointwise `deactRow` map (the `none` branch changes nothing because no row
matches). -/
theorem deact1_subs (db : DB) (sid : Nat) (e : String) :
    (deactivate_subscription_by_id db sid e).1.subs = db.subs.map (deactRow sid e) := by
  rw [deactivate_subscription_by_id]
  cases hf : db.subs.find? (fun s => s.id == sid && s.active) with
  | some s => rfl
  | none =>
    have hid : ∀ r ∈ db.subs, deactRow sid e r = id r := by
      intro r hr
      have := List.find?_eq_none.mp hf r hr
      rw [deactRow, if_neg (by simpa using this)]
      rfl
    simp only
    exact ((List.map_congr_left hid).trans (List.map_id db.subs)).symm

theorem deact1_rest (db : DB) (sid : Nat) (e : String) :
    (deactivate_subscription_by_id db sid e).1.nextId = db.nextId ∧
    (deactivate_subscription_by_id db sid e).1.balances = db.balances ∧
    (deactivate_subscription_by_id db sid e).1.txs = db.txs ∧
    (deactivate_subscription_by_id db sid e).1.referrals = db.referrals ∧
    (deactivate_subscription_by_id db sid e).1.refLevels = db.refLevels ∧
    (deactivate_subscription_by_id db sid e).1.profiles = db.profiles ∧
    (deactivate_subscription_by_id db sid e).1.tariffs = db.tariffs := by
  rw [deactivate_subscription_by_id]
  cases db.subs.find? (fun s => s.id == sid && s.active) <;>
    exact ⟨rfl, rfl, rfl, rfl, rfl, rfl, rfl⟩

theorem foldDeact_subs (ss : List Subscription) (db : DB) (e : String) :
    (ss.foldl (fun d s => (deactivate_subscription_by_id d s.id e).1) db).subs =
      db.subs.map (deactRowAll (ss.map Subscription.id) e) := by
  induction ss generalizing db with
  | nil =>
    show db.subs = db.subs.map (deactRowAll [] e)
    rw [show deactRowAll [] e = id from rfl, List.map_id]
  | cons s rest ih =>
    show (rest.foldl _ (deactivate_subscription_by_id db s.id e).1).subs = _
    rw [ih, deact1_subs, List.map_map]
    rfl

theorem foldDeact_rest (ss : List Subscription) (db : DB) (e : String) :
    (ss.foldl (fun d s => (deactivate_subscription_by_id d s.id e).1) db).nextId
        = db.nextId ∧
    (ss.foldl (fun d s => (deactivate_subscription_by_id d s.id e).1) db).balances
        = db.balances ∧
    (ss.foldl (fun d s => (deactivate_subscription_by_id d s.id e).1) db).txs
        = db.txs ∧
    (ss.foldl (fun d s => (deactivate_subscription_by_id d s.id e).1) db).referrals
        = db.referrals ∧
    (ss.foldl (fun d s => (deactivate_subscription_by_id d s.id e).1) db).refLevels
        = db.refLevels ∧
    (ss.foldl (fun d s => (deactivate_subscription_by_id d s.id e).1) db).profiles
        = db.profiles ∧
    (ss.foldl (fun d s => (deactivate_subscription_by_id d s.id e).1) db).tariffs
        = db.tariffs := by
  induction ss generalizing db with
  | nil => exact ⟨rfl, rfl, rfl, rfl, rfl, rfl, rfl⟩
  | cons s rest ih =>
    have h1 := deact1_rest db s.id e
    have h2 := ih (deactivate_subscription_by_id db s.id e).1
    exact ⟨h2.1.trans h1.1, h2.2.1.trans h1.2.1, h2.2.2.1.trans h1.2.2.1,
      h2.2.2.2.1.trans h1.2.2.2.1, h2.2.2.2.2.1.trans h1.2.2.2.2.1,
      h2.2.2.2.2.2.1.trans h1.2.2.2.2.2.1, h2.2.2.2.2.2.2.trans h1.2.2.2.2.2.2⟩

theorem mem_active_subs (db : DB) (tg now : Int) (s : Subscription) :
    s ∈ get_active_subscriptions_for_telegram db tg now ↔
      s ∈ db.subs ∧ isActiveFor tg now s = true := by
  rw [get_active_subscriptions_for_telegram,
    (List.perm_insertionSort (fun a b => subDescLE a b) _).mem_iff,
    List.mem_filter]

theorem deactAll_subs (db : DB) (tg : Int) (e : String) (now : Int) :
    (deactivate_existing_active_subscriptions db tg e now).subs =
      db.subs.map
        (deactRowAll ((get_active_subscriptions_for_telegram db tg now).map
          Subscription.id) e) :=
  foldDeact_subs _ db e

theorem isActiveFor_active {tg now : Int} {s : Subscription}
    (h : isActiveFor tg now s = true) : s.active = true := by
  rw [isActiveFor] at h
  simp only [Bool.and_eq_true] at h
  exact h.1.2

theorem isActiveFor_tg {tg now : Int} {s : Subscription}
    (h : isActiveFor tg now s = true) : s.telegram_user_id = tg := by
  rw [isActiveFor] at h
  simp only [Bool.and_eq_true, beq_iff_eq] at h
  exact h.1.1

theorem isActiveFor_expires {tg now : Int} {s : Subscription}
    (h : isActiveFor tg now s = true) : now < s.expires_at := by
  rw [isActiveFor] at h
  simp only [Bool.and_eq_true, decide_eq_true_eq] at h
  exact h.2

/-- After `deactivate_existing_active_subscriptions`, the user has no active
not-yet-expired subscription. -/
theorem deactAll_no_active (db : DB) (tg : Int) (e : String) (now : Int) :
    ∀ r ∈ (deactivate_existing_active_subscriptions db tg e now).subs,
      isActiveFor tg now r = false := by
  intro r hr
  rw [deactAll_subs] at hr
  obtain ⟨r0, hr0, rfl⟩ := List.mem_map.mp hr
  set L := (get_active_subscriptions_for_telegram db tg now).map Subscription.id
    with hL
  cases hcase : isActiveFor tg now (deactRowAll L e r0) with
  | false => rfl
  | true =>
    exfalso
    have heq := deactRowAll_active_eq L e r0 (isActiveFor_active hcase)
    rw [heq] at hcase
    have hr0act : r0.active = true := isActiveFor_active hcase
    have hmem : r0 ∈ get_active_subscriptions_for_telegram db tg now :=
      (mem_active_subs db tg now r0).mpr ⟨hr0, hcase⟩
    have hid : r0.id ∈ L := by rw [hL]; exact List.mem_map.mpr ⟨r0, hmem, rfl⟩
    have hdead := deactRowAll_deactivates L e r0 hr0act hid
    rw [heq] at hdead
    rw [hdead] at hr0act
    cases hr0act

theorem deactAll_rest (db : DB) (tg : Int) (e : String) (now : Int) :
    (deactivate_existing_active_subscriptions db tg e now).nextId = db.nextId ∧
    (deactivate_existing_active_subscriptions db tg e now).balances = db.balances ∧
    (deactivate_existing_active_subscriptions db tg e now).txs = db.txs ∧
    (deactivate_existing_active_subscriptions db tg e now).referrals = db.referrals ∧
    (deactivate_existing_active_subscriptions db tg e now).refLevels = db.refLevels ∧
    (deactivate_existing_active_subscriptions db tg e now).profiles = db.profiles ∧
    (deactivate_existing_active_subscriptions db tg e now).tariffs = db.tariffs :=
  foldDeact_rest _ db e

/-- With no active rows to deactivate, the cleanup is a no-op. -/
theorem deactAll_eq_self (db : DB) (tg : Int) (e : String) (now : Int)
    (h : ∀ r ∈ db.subs, isActiveFor tg now r = false) :
    deactivate_existing_active_subscriptions db tg e now = db := by
  rw [deactivate_existing_active_subscriptions]
  have hfil : db.subs.filter (isActiveFor tg now) = [] :=
    List.filter_eq_nil_iff.mpr (by intro a ha; simp [h a ha])
  rw [get_active_subscriptions_for_telegram, hfil]
  rfl

theorem length_filter_map_le (l : List Subscription)
    (f : Subscription → Subscription) (p : Subscription → Bool)
    (hf : ∀ r ∈ l, p (f r) = true → p r = true) :
    ((l.map f).filter p).length ≤ (l.filter p).length := by
  induction l with
  | nil => simp
  | cons r rest ih =>
    have ih' := ih (fun x hx => hf x (List.mem_cons_of_mem r hx))
    by_cases h1 : p (f r) = true
    · have h2 := hf r (List.mem_cons_self r rest) h1
      simp only [List.map_cons, List.filter_cons, h1, h2, if_true,
        List.length_cons]
      omega
    · have h1f : p (f r) = false := by revert h1; cases p (f r) <;> simp
      simp only [List.map_cons, List.filter_cons, h1f, Bool.false_eq_true,
        if_false]
      by_cases h2 : p r = true
      · simp only [h2, if_true, List.length_cons]
        omega
      · have h2f : p r = false := by revert h2; cases p r <;> simp
        simp only [h2f, Bool.false_eq_true, if_false]
        exact ih'

theorem length_filter_map_eq (l : List Subscription)
    (f : Subscription → Subscription) (p : Subscription → Bool)
    (hf : ∀ r ∈ l, p (f r) = p r) :
    ((l.map f).filter p).length = (l.filter p).length := by
  induction l with
  | nil => simp
  | cons r rest ih =>
    have ih' := ih (fun x hx => hf x (List.mem_cons_of_mem r hx))
    have h1 := hf r (List.mem_cons_self r rest)
    simp only [List.map_cons, List.filter_cons, h1]
    by_cases h2 : p r = true
    · simp only [h2, if_true, List.length_cons, ih']
    · have h2f : p r = false := by revert h2; cases p r <;> simp
      simp only [h2f, Bool.false_eq_true, if_false, ih']

theorem countActive_of_subs_map_le (db db' : DB) (f : Subscription → Subscription)
    (h : db'.subs = db.subs.map f) (tg now : Int)
    (hf : ∀ r ∈ db.subs, isActiveFor tg now (f r) = true → isActiveFor tg now r = true) :
    countActive db' tg now ≤ countActive db tg now := by
  rw [countActive, countActive, h]
  exact length_filter_map_le db.subs f _ hf

theorem deactRowAll_pred (ids : List Nat) (e : String) (r : Subscription)
    (tg now : Int) (h : isActiveFor tg now (deactRowAll ids e r) = true) :
    isActiveFor tg now r = true := by
  have heq := deactRowAll_active_eq ids e r (isActiveFor_active h)
  rw [heq] at h
  exact h

theorem countActive_deactAll_le (db : DB) (tg : Int) (e : String) (now : Int)
    (tg' now' : Int) :
    countActive (deactivate_existing_active_subscriptions db tg e now) tg' now' ≤
      countActive db tg' now' :=
  countActive_of_subs_map_le db _ _ (deactAll_subs db tg e now) tg' now'
    (fun r _ h => deactRowAll_pred _ e r tg' now' h)

theorem countActive_deactAll_self (db : DB) (tg : Int) (e : String) (now : Int) :
    countActive (deactivate_existing_active_subscriptions db tg e now) tg now = 0 := by
  rw [countActive, List.length_eq_zero]
  exact List.filter_eq_nil_iff.mpr (by
    intro r hr
    simp [deactAll_no_active db tg e now r hr])

theorem deactRow_pred (sid : Nat) (e : String) (r : Subscription) (tg now : Int)
    (h : isActiveFor tg now (deactRow sid e r) = true) :
    isActiveFor tg now r = true := by
  by_cases hc : r.id == sid && r.active
  · have : deactRow sid e r = { r with active := false, last_event_name := e } := by
      rw [deactRow, if_pos hc]
    rw [this] at h
    exact absurd (isActiveFor_active h) (by simp)
  · rwa [deactRow, if_neg hc] at h

theorem countActive_deact1_le (db : DB) (sid : Nat) (e : String) (tg now : Int) :
    countActive (deactivate_subscription_by_id db sid e).1 tg now ≤
      countActive db tg now :=
  countActive_of_subs_map_le db _ _ (deact1_subs db sid e) tg now
    (fun r _ h => deactRow_pred sid e r tg now h)

theorem countActive_insert_other (db : DB) (tg : Int)
    (period channelName vpnIp priv pub : String) (expiresAt : Int) (ev : String)
    (tg' now' : Int) (hne : tg ≠ tg') :
    countActive (insert_subscription db tg period channelName vpnIp priv pub
      expiresAt ev).1 tg' now' = countActive db tg' now' := by
  rw [countActive, countActive, insert_subscription]
  simp only [List.filter_append, List.length_append]
  rw [show (List.filter (isActiveFor tg' now') [_]).length = 0 by
    simp [isActiveFor, hne]]
  omega

theorem countActive_insert_self (db : DB) (tg : Int)
    (period channelName vpnIp priv pub : String) (expiresAt : Int) (ev : String)
    (now' : Int) :
    countActive (insert_subscription db tg period channelName vpnIp priv pub
      expiresAt ev).1 tg now' ≤ countActive db tg now' + 1 := by
  rw [countActive, countActive, insert_subscription]
  simp only [List.filter_append, List.length_append]
  have : (List.filter (isActiveFor tg now')
      [{ id := db.nextId, telegram_user_id := tg, period := period
         channel_name := channelName, vpn_ip := vpnIp, wg_private_key := priv
         wg_public_key := pub, expires_at := expiresAt, active := true
         last_event_name := ev }]).length ≤ 1 := by
    rw [List.filter_singleton]
    cases isActiveFor tg now' _ <;> simp
  omega

theorem countActive_update_eq (db : DB) (sub : Subscription) (newExp : Int)
    (ev : String) (now : Int)
    (huniq : ∀ r ∈ db.subs, r.id = sub.id → r = sub)
    (hexp : now < sub.expires_at) (hnew : now < newExp) (tg' : Int) :
    countActive (update_subscription_expiration db sub.id newExp ev) tg' now =
      countActive db tg' now := by
  rw [countActive, countActive, update_subscription_expiration]
  refine length_filter_map_eq db.subs _ _ ?_
  intro r hr
  by_cases hc : r.id == sub.id
  · have hr_eq : r = sub := huniq r hr (by simpa using hc)
    subst hr_eq
    rw [if_pos hc]
    simp only [isActiveFor]
    rw [show decide (now < newExp) = true by simpa using hnew,
      show decide (now < r.expires_at) = true by simpa using hexp]
  · rw [if_neg hc]

theorem countActive_update_le (db : DB) (sub : Subscription) (newExp : Int)
    (ev : String) (now : Int)
    (huniq : ∀ r ∈ db.subs, r.id = sub.id → r = sub)
    (hexp : newExp ≤ sub.expires_at) (tg' : Int) :
    countActive (update_subscription_expiration db sub.id newExp ev) tg' now ≤
      countActive db tg' now := by
  rw [countActive, countActive, update_subscription_expiration]
  refine length_filter_map_le db.subs _ _ ?_
  intro r hr h
  by_cases hc : r.id == sub.id
  · have hr_eq : r = sub := huniq r hr (by simpa using hc)
    subst hr_eq
    rw [if_pos hc] at h
    simp only [isActiveFor, Bool.and_eq_true, decide_eq_true_eq] at h ⊢
    exact ⟨h.1, by omega⟩
  · rwa [if_neg hc] at h

/-! Well-formedness preservation -/

theorem SubsWF_uniq (db : DB) (h : SubsWF db) (sub : Subscription)
    (hsub : sub ∈ db.subs) : ∀ r ∈ db.subs, r.id = sub.id → r = sub := by
  intro r hr hid
  exact List.inj_on_of_nodup_map h.1 hr hsub hid

theorem SubsWF_of_map (db db' : DB) (f : Subscription → Subscription)
    (hsubs : db'.subs = db.subs.map f) (hid : ∀ r, (f r).id = r.id)
    (hnext : db'.nextId = db.nextId) (h : SubsWF db) : SubsWF db' := by
  constructor
  · rw [hsubs, List.map_map]
    have : (Subscription.id ∘ f) = Subscription.id := funext hid
    rw [this]
    exact h.1
  · intro s hs
    rw [hsubs] at hs
    obtain ⟨r, hr, rfl⟩ := List.mem_map.mp hs
    rw [hid r, hnext]
    exact h.2 r hr

theorem SubsWF_insert (db : DB) (tg : Int)
    (period channelName vpnIp priv pub : String) (expiresAt : Int) (ev : String)
    (h : SubsWF db) :
    SubsWF (insert_subscription db tg period channelName vpnIp priv pub
      expiresAt ev).1 := by
  constructor
  · rw [insert_subscription]
    simp only [List.map_append]
    rw [List.nodup_append]
    refine ⟨h.1, by simp, ?_⟩
    intro a ha
    simp only [List.map_cons, List.map_nil, List.mem_cons, List.not_mem_nil,
      or_false]
    intro hEq
    obtain ⟨r, hr, hrid⟩ := List.mem_map.mp ha
    have := h.2 r hr
    omega
  · intro s hs
    rw [insert_subscription] at hs
    simp only [List.mem_append, List.mem_singleton] at hs
    cases hs with
    | inl hmem =>
      have := h.2 s hmem
      show s.id < db.nextId + 1
      omega
    | inr hEq =>
      subst hEq
      show db.nextId < db.nextId + 1
      omega

theorem deactRowAll_id (ids : List Nat) (e : String) (r : Subscription) :
    (deactRowAll ids e r).id = r.id := by
  induction ids generalizing r with
  | nil => rfl
  | cons sid rest ih =>
    show (deactRowAll rest e (deactRow sid e r)).id = r.id
    rw [ih, deactRow_id]

theorem SubsWF_deactAll (db : DB) (tg : Int) (e : String) (now : Int)
    (h : SubsWF db) :
    SubsWF (deactivate_existing_active_subscriptions db tg e now) :=
  SubsWF_of_map db _ _ (deactAll_subs db tg e now)
    (fun r => deactRowAll_id _ e r) (deactAll_rest db tg e now).1 h

theorem SubsWF_deact1 (db : DB) (sid : Nat) (e : String) (h : SubsWF db) :
    SubsWF (deactivate_subscription_by_id db sid e).1 :=
  SubsWF_of_map db _ _ (deact1_subs db sid e) (deactRow_id sid e)
    (deact1_rest db sid e).1 h

theorem SubsWF_update (db : DB) (sid : Nat) (newExp : Int) (ev : String)
    (h : SubsWF db) : SubsWF (update_subscription_expiration db sid newExp ev) := by
  refine SubsWF_of_map db _ _ rfl ?_ rfl h
  intro r
  by_cases hc : r.id == sid
  · simp only [hc, if_true]
  · simp only [hc, Bool.false_eq_true, if_false]

/-! ### Claim C9: WireGuard failure during create -/

/-- C9 (amended): when the peer-addition fails during a create transition
(`wg.add_peer` raising), no subscription row is inserted and the webhook
handler returns HTTP **200** with body `ok (wg add error)` — it does not
return a 5xx, so the provider is *not* asked to retry; the deactivation of
the user's previously-active subscriptions has already happened by then. -/
theorem wg_failure_no_insert (db : DB) (now : Int) (paymentId : String)
    (tg : Int) (tariffCode : String) (days : Int) (apiCreatedAt : Option Int)
    (fetchCreatedAt : String → Option Int) (freshPriv freshPub ip : String)
    (hdays : tariffDaysFor tariffCode = some days)
    (hidem : subscription_exists_by_event db
      ("yookassa_payment_succeeded_" ++ paymentId) = false)
    (hnoyk : (get_active_subscriptions_for_telegram db tg now).find? isYookassaSub
      = none)
    (hip : generate_client_ip
      (deactivate_existing_active_subscriptions db tg "auto_replace_yookassa" now)
      now = some ip) :
    handle_yookassa_success db now paymentId tg tariffCode apiCreatedAt
        fetchCreatedAt freshPriv freshPub false =
      (deactivate_existing_active_subscriptions db tg "auto_replace_yookassa" now,
        okResponse "ok (wg add error)") ∧
    (handle_yookassa_success db now paymentId tg tariffCode apiCreatedAt
        fetchCreatedAt freshPriv freshPub false).1.subs.length = db.subs.length ∧
    (handle_yookassa_success db now paymentId tg tariffCode apiCreatedAt
        fetchCreatedAt freshPriv freshPub false).1.nextId = db.nextId ∧
    (handle_yookassa_success db now paymentId tg tariffCode apiCreatedAt
        fetchCreatedAt freshPriv freshPub false).2.status = 200 := by
  have hmain : handle_yookassa_success db now paymentId tg tariffCode apiCreatedAt
      fetchCreatedAt freshPriv freshPub false =
      (deactivate_existing_active_subscriptions db tg "auto_replace_yookassa" now,
        okResponse "ok (wg add error)") := by
    unfold handle_yookassa_success
    simp only [hdays, hidem, Bool.false_eq_true, if_false, hnoyk, hip,
      Bool.not_false, if_true]
  refine ⟨hmain, ?_, ?_, ?_⟩
  · rw [hmain]
    simp only
    rw [deactAll_subs, List.length_map]
  · rw [hmain]
    exact (deactAll_rest db tg "auto_replace_yookassa" now).1
  · rw [hmain]
    rfl

/-- C9 counterexample: with the WireGuard interface unavailable, the concrete
create transition answers status 200 (`ok (wg add error)`), not a 5xx. -/
theorem wg_failure_5xx_counterexample :
    (handle_yookassa_success emptyDB 0 "p1" 100 "1m" none (fun _ => none)
        "privB" "pubB" false).2 = okResponse "ok (wg add error)" ∧
    ¬(500 ≤ (handle_yookassa_success emptyDB 0 "p1" 100 "1m" none (fun _ => none)
        "privB" "pubB" false).2.status) := by
  constructor
  · decide
  · decide

/-- Witness for C9 at concrete inputs. -/
theorem wg_failure_no_insert_witness :
    handle_yookassa_success emptyDB 0 "p1" 100 "1m" none (fun _ => none)
        "privB" "pubB" false =
      (deactivate_existing_active_subscriptions emptyDB 100
          "auto_replace_yookassa" 0,
        okResponse "ok (wg add error)") :=
  (wg_failure_no_insert emptyDB 0 "p1" 100 "1m" 30 none (fun _ => none)
    "privB" "pubB" "10.8.0.2" (by decide) (by decide) (by decide) (by decide)).1

/-! ### Claim C10: the IP-allocation advisory lock -/

/-- C10 (amended): the advisory lock is released on the success path (by
`insert_subscription`'s `finally`), on an exhausted pool (the `except` in
`generate_client_ip`), on a failed `wg set` command (the `except` in
`add_peer`) and on a failed insert — but when `ensure_wg_up` fails inside
`add_peer` (interface absent) the exception propagates *before* the `try`
block that releases the lock, and the attempt terminates with the lock still
held; acquisition is reference-counted, so nested acquire/release pairs
balance and a release without a held lock is a no-op. -/
theorem ip_lock_release_spec (db : DB) (now : Int) :
    (∀ wgSetOk insertOk,
      provisionLockTrace db now true wgSetOk insertOk = ⟨false, 0⟩) ∧
    (generate_client_ip db now = none →
      ∀ wgUpOk wgSetOk insertOk,
        provisionLockTrace db now wgUpOk wgSetOk insertOk = ⟨false, 0⟩) ∧
    (∀ ip, generate_client_ip db now = some ip →
      ∀ wgSetOk insertOk,
        provisionLockTrace db now false wgSetOk insertOk = ⟨true, 1⟩) ∧
    release_ip_allocation_lock ⟨false, 0⟩ = ⟨false, 0⟩ ∧
    acquire_ip_allocation_lock (acquire_ip_allocation_lock ⟨false, 0⟩) = ⟨true, 2⟩ ∧
    release_ip_allocation_lock (acquire_ip_allocation_lock
      (acquire_ip_allocation_lock ⟨false, 0⟩)) = ⟨true, 1⟩ := by
  refine ⟨?_, ?_, ?_, by decide, by decide, by decide⟩
  · intro wgSetOk insertOk
    rw [provisionLockTrace]
    cases h : generate_client_ip db now with
    | none =>
      simp only [generate_client_ip_locked, h]
      decide
    | some ip =>
      simp only [generate_client_ip_locked, h]
      cases wgSetOk <;> cases insertOk <;> decide
  · intro h wgUpOk wgSetOk insertOk
    rw [provisionLockTrace]
    simp only [generate_client_ip_locked, h]
    decide
  · intro ip h wgSetOk insertOk
    rw [provisionLockTrace]
    simp only [generate_client_ip_locked, h]
    cases wgSetOk <;> cases insertOk <;> decide

/-- C10 counterexample: a provisioning attempt that finds the interface down
(`ensure_wg_up` raising inside `add_peer`) terminates with the advisory lock
still held. -/
theorem ip_lock_leak_counterexample :
    (provisionLockTrace emptyDB 0 false true true).held = true := by decide

/-- Witness for C10 at concrete inputs: a fully successful attempt releases
the lock. -/
theorem ip_lock_release_spec_witness :
    provisionLockTrace emptyDB 0 true true true = ⟨false, 0⟩ :=
  (ip_lock_release_spec emptyDB 0).1 true true

/-! ### Claim C8: the revive-reuse path -/

/-- A deactivated subscription of user 100 that still holds its keypair and
ip (the situation `T-Revive-Reuse` is about). -/
def reviveSub : Subscription :=
  { id := 1, telegram_user_id := 100, period := "points_1m"
    channel_name := "Points balance", vpn_ip := "10.8.0.5"
    wg_private_key := "privA", wg_public_key := "pubA", expires_at := 500
    active := false, last_event_name := "expired_auto_deactivate" }

/-- Database for the C8 scenario: only `reviveSub`, plus a points balance of
200 for user 100. -/
def reviveDB : DB :=
  { emptyDB with subs := [reviveSub], nextId := 2, balances := [(100, 200)] }

/-- C8: the claimed revive-reuse does not happen.  User 100 has **no** active
subscription; their most recent row is deactivated but still holds the
keypair `privA`/`pubA` and ip `10.8.0.5`.  `get_latest_subscription_for_telegram`
only ever returns *active not-yet-expired* rows, so the points payment takes
the fresh-provisioning path: it generates a new keypair and a new ip
(`10.8.0.2`) and re-sends the client config — contradicting both the claim
and the source's own comments on the reuse branch. -/
theorem points_no_revive_of_inactive_rows :
    reviveDB.subs.map (fun s =>
        (s.active, s.wg_private_key, s.wg_public_key, s.vpn_ip)) =
      [(false, "privA", "pubA", "10.8.0.5")] ∧
    get_latest_subscription_for_telegram reviveDB 100 1000 = none ∧
    (points_tariff_payment reviveDB 1000 100 "1m" 100 30 "privB" "pubB"
        true).2 = ⟨true, true, "privB", "pubB", "10.8.0.2"⟩ := by
  refine ⟨by decide, by decide, by decide⟩

/-! ### Claim C5: referral rewards -/

theorem upline_chain_length_le (db : DB) :
    ∀ (fuel : Nat) (tg : Int), (get_referral_upline_chain db tg fuel).length ≤ fuel := by
  intro fuel
  induction fuel with
  | zero => intro tg; simp [get_referral_upline_chain]
  | succ n ih =>
    intro tg
    rw [get_referral_upline_chain]
    cases lookupReferrer db tg with
    | none => simp
    | some r =>
      simp only [List.length_cons]
      exact Nat.succ_le_succ (ih r)

theorem levelCfg_congr (db db' : DB) (h : db'.refLevels = db.refLevels)
    (l : Nat) : levelCfg db' l = levelCfg db l := by
  rw [levelCfg, levelCfg, h]

theorem levelMultiplier_congr (db db' : DB) (h : db'.refLevels = db.refLevels)
    (l : Nat) : levelMultiplier db' l = levelMultiplier db l := by
  rw [levelMultiplier, levelMultiplier, levelCfg_congr db db' h]

theorem levelQualifies_congr (db db' : DB) (h : db'.refLevels = db.refLevels)
    (base : Int) (l : Nat) :
    levelQualifies db' base l = levelQualifies db base l := by
  rw [levelQualifies, levelQualifies, levelCfg_congr db db' h]

theorem levelQualifies_bonus_pos (db : DB) (base : Int) (l : Nat)
    (h : levelQualifies db base l = true) :
    0 < refBonus base (levelMultiplier db l) := by
  rw [levelQualifies] at h
  cases hc : levelCfg db l with
  | none => rw [hc] at h; cases h
  | some cfg =>
    rw [hc] at h
    simp only [Bool.and_eq_true, decide_eq_true_eq] at h
    have : levelMultiplier db l = cfg.multiplier := by
      rw [levelMultiplier, hc]; rfl
    rw [this]
    exact h.2

theorem add_points_pos (db : DB) (tg delta : Int) (reason source : String)
    (relSub : Option Nat) (level : Option Nat)
    (hpos : 0 < delta) (hbal : 0 ≤ balanceOf db tg) :
    add_points db tg delta reason source relSub level false =
      ({ db with
          balances := upsertBalance db.balances tg (balanceOf db tg + delta)
          txs := db.txs ++
            [{ telegram_user_id := tg, delta := delta, reason := reason
               source := source, related_subscription_id := relSub
               level := level }] },
        ⟨true, some (balanceOf db tg + delta)⟩) := by
  rw [add_points, if_neg (by simp; omega), if_neg (by simp; omega)]

theorem refRewardLoop_spec (base : Int) (source : String) (subId : Nat) :
    ∀ (chain : List Int) (db : DB) (startLevel : Nat),
      (∀ tg, 0 ≤ balanceOf db tg) →
      ∃ newTxs : List PointsTx,
        (refRewardLoop base source subId db startLevel chain).1.txs =
            db.txs ++ newTxs ∧
        (newTxs.map PointsTx.delta).sum =
          ((List.range chain.length).map (fun j =>
            if levelQualifies db base (startLevel + j) = true then
              refBonus base (levelMultiplier db (startLevel + j)) else 0)).sum ∧
        (∀ t ∈ newTxs, ∃ l, t.level = some l ∧ startLevel ≤ l ∧
            l < startLevel + chain.length) ∧
        (refRewardLoop base source subId db startLevel chain).1.subs = db.subs ∧
        (refRewardLoop base source subId db startLevel chain).1.nextId = db.nextId ∧
        (refRewardLoop base source subId db startLevel chain).1.refLevels =
            db.refLevels ∧
        (∀ tg, 0 ≤ balanceOf
            (refRewardLoop base source subId db startLevel chain).1 tg) := by
  intro chain
  induction chain with
  | nil =>
    intro db startLevel hbal
    exact ⟨[], by simp [refRewardLoop], by simp [refRewardLoop], by simp,
      rfl, rfl, rfl, hbal⟩
  | cons referrer rest ih =>
    intro db startLevel hbal
    by_cases hq : levelQualifies db base startLevel = true
    · have hbonus := levelQualifies_bonus_pos db base startLevel hq
      have hadd := add_points_pos db referrer
        (refBonus base (levelMultiplier db startLevel))
        ("ref_level_" ++ toString startLevel) source (some subId)
        (some startLevel) hbonus (hbal referrer)
      set db1 : DB :=
        { db with
            balances := upsertBalance db.balances referrer
              (balanceOf db referrer + refBonus base (levelMultiplier db startLevel))
            txs := db.txs ++
              [{ telegram_user_id := referrer
                 delta := refBonus base (levelMultiplier db startLevel)
                 reason := "ref_level_" ++ toString startLevel
                 source := source, related_subscription_id := some subId
                 level := some startLevel }] } with hdb1
      have hbal1 : ∀ tg, 0 ≤ balanceOf db1 tg := by
        intro tg
        by_cases htg : tg = referrer
        · subst htg
          rw [balanceOf_upsert_self db1 db.balances tg
            (balanceOf db tg + refBonus base (levelMultiplier db startLevel)) rfl]
          have := hbal tg
          omega
        · rw [balanceOf_upsert_other db db1 referrer
            (balanceOf db referrer + refBonus base (levelMultiplier db startLevel))
            tg rfl htg]
          exact hbal tg
      obtain ⟨newTxs', htxs', hsum', hlvl', hsubs', hnext', hlev', hbal'⟩ :=
        ih db1 (startLevel + 1) hbal1
      have hloop : refRewardLoop base source subId db startLevel
          (referrer :: rest) =
          ((refRewardLoop base source subId db1 (startLevel + 1) rest).1,
            ⟨startLevel, referrer, refBonus base (levelMultiplier db startLevel)⟩ ::
            (refRewardLoop base source subId db1 (startLevel + 1) rest).2) := by
        simp only [refRewardLoop, hq, if_true, hadd]
      refine ⟨{ telegram_user_id := referrer
                delta := refBonus base (levelMultiplier db startLevel)
                reason := "ref_level_" ++ toString startLevel
                source := source, related_subscription_id := some subId
                level := some startLevel } :: newTxs', ?_, ?_, ?_, ?_, ?_, ?_, ?_⟩
      · rw [hloop]
        simp only
        rw [htxs', hdb1]
        simp
      · simp only [List.map_cons, List.sum_cons]
        have hrw : ((List.range rest.length).map (fun j =>
            if levelQualifies db1 base (startLevel + 1 + j) = true then
              refBonus base (levelMultiplier db1 (startLevel + 1 + j)) else 0)) =
            ((List.range rest.length).map (fun j =>
            if levelQualifies db base (startLevel + (j + 1)) = true then
              refBonus base (levelMultiplier db (startLevel + (j + 1))) else 0)) := by
          refine List.map_congr_left ?_
          intro j _
          rw [levelQualifies_congr db db1 rfl, levelMultiplier_congr db db1 rfl,
            show startLevel + 1 + j = startLevel + (j + 1) by omega]
        rw [hsum', hrw, List.length_cons, List.range_succ_eq_map]
        simp only [List.map_cons, List.sum_cons, List.map_map]
        rw [Nat.add_zero, if_pos hq]
        rfl
      · intro t ht
        cases List.mem_cons.mp ht with
        | inl hEq =>
          subst hEq
          exact ⟨startLevel, rfl, le_refl _, by simp⟩
        | inr hmem =>
          obtain ⟨l, hl, hl1, hl2⟩ := hlvl' t hmem
          exact ⟨l, hl, by omega, by simp only [List.length_cons]; omega⟩
      · rw [hloop]
        simp only
        rw [hsubs', hdb1]
      · rw [hloop]
        simp only
        rw [hnext', hdb1]
      · rw [hloop]
        simp only
        rw [hlev', hdb1]
      · intro tg
        rw [hloop]
        simp only
        exact hbal' tg
    · have hloop : refRewardLoop base source subId db startLevel
          (referrer :: rest) =
          refRewardLoop base source subId db (startLevel + 1) rest := by
        rw [refRewardLoop, if_neg hq]
      obtain ⟨newTxs', htxs', hsum', hlvl', hsubs', hnext', hlev', hbal'⟩ :=
        ih db (startLevel + 1) hbal
      refine ⟨newTxs', ?_, ?_, ?_, ?_, ?_, ?_, ?_⟩
      · rw [hloop]; exact htxs'
      · rw [hsum', List.length_cons, List.range_succ_eq_map]
        simp only [List.map_cons, List.sum_cons, List.map_map]
        simp only [Nat.add_zero]
        rw [if_neg hq]
        have hrw : ((List.range rest.length).map (fun j =>
            if levelQualifies db base (startLevel + 1 + j) = true then
              refBonus base (levelMultiplier db (startLevel + 1 + j)) else 0)) =
            ((List.range rest.length).map ((fun j =>
            if levelQualifies db base (startLevel + j) = true then
              refBonus base (levelMultiplier db (startLevel + j)) else 0) ∘
              Nat.succ)) := by
          refine List.map_congr_left ?_
          intro j _
          simp only [Function.comp]
          rw [show startLevel + 1 + j = startLevel + (j + 1) by omega]
        rw [hrw]
        simp
      · intro t ht
        obtain ⟨l, hl, hl1, hl2⟩ := hlvl' t ht
        exact ⟨l, hl, by omega, by simp only [List.length_cons]; omega⟩
      · rw [hloop]; exact hsubs'
      · rw [hloop]; exact hnext'
      · rw [hloop]; exact hlev'
      · intro tg; rw [hloop]; exact hbal' tg

theorem list_range_map_sum_int (g : Nat → Int) (k : Nat) :
    ((List.range k).map g).sum = ∑ i ∈ Finset.range k, g i := by
  induction k with
  | zero => simp
  | succ n ih =>
    rw [List.range_succ, List.map_append, List.sum_append,
      Finset.sum_range_succ, ih]
    simp

theorem levelQualifies_of_no_levels (db : DB) (base : Int) (i : Nat)
    (h : db.refLevels = []) : levelQualifies db base i = false := by
  rw [levelQualifies, levelCfg, h]
  rfl

theorem sum_range_shift_one (f : Nat → Int) (k : Nat) :
    (∑ i ∈ Finset.range k, f (1 + i)) = ∑ i ∈ Finset.Icc 1 k, f i := by
  induction k with
  | zero => simp
  | succ n ih =>
    rw [Finset.sum_range_succ, ih,
      Finset.sum_Icc_succ_top (by omega : 1 ≤ n + 1), Nat.add_comm 1 n]

/-- C5: on a paid event with an upline chain of length `k ≤ 5`, a positive
base bonus on a `ref_enabled` active tariff, and a payer who is not
referral-blocked (and no referrer sitting on a negative balance), the total
of the deltas of the new ledger rows equals
`∑ i = 1..k, round(base · mᵢ)` over the levels whose configuration exists,
is active and has a positive multiplier (levels whose rounded bonus is ≤ 0
contribute nothing), and every credit is tagged with a level between 1 and
`k ≤ 5`: referrers beyond depth 5 are never credited. -/
theorem referral_rewards_spec (db : DB) (payer : Int) (subId : Nat)
    (code source : String) (tariff : Tariff) (base : Int)
    (hblocked : is_user_referral_blocked db payer = false)
    (htar : get_tariff_for_referral_by_code db code = some tariff)
    (hen : tariff.ref_enabled = true)
    (hbase : (tariff.ref_base_bonus_points).getD 0 = base)
    (hpos : 0 < base)
    (hbal : ∀ tg, 0 ≤ balanceOf db tg) :
    (get_referral_upline_chain db payer 5).length ≤ 5 ∧
    ∃ newTxs : List PointsTx,
      (apply_referral_rewards_for_subscription db payer subId code source).1.txs =
          db.txs ++ newTxs ∧
      (newTxs.map PointsTx.delta).sum =
        (∑ i ∈ Finset.Icc 1 (get_referral_upline_chain db payer 5).length,
          if levelQualifies db base i = true then
            refBonus base (levelMultiplier db i) else 0) ∧
      ∀ t ∈ newTxs, ∃ l, t.level = some l ∧ 1 ≤ l ∧
          l ≤ (get_referral_upline_chain db payer 5).length := by
  refine ⟨upline_chain_length_le db 5 payer, ?_⟩
  unfold apply_referral_rewards_for_subscription
  simp only [hblocked, Bool.false_eq_true, if_false, htar]
  rw [if_neg (by simp [hen, hbase]; omega), hbase]
  by_cases hup : (get_referral_upline_chain db payer 5).isEmpty
  · rw [if_pos hup]
    refine ⟨[], by simp, ?_, by simp⟩
    rw [List.isEmpty_iff.mp hup]
    simp
  · rw [if_neg hup]
    by_cases hlev : db.refLevels.isEmpty
    · rw [if_pos hlev]
      refine ⟨[], by simp, ?_, by simp⟩
      rw [Finset.sum_eq_zero, List.map_nil, List.sum_nil]
      intro i _
      rw [levelQualifies_of_no_levels db base i (List.isEmpty_iff.mp hlev)]
      simp
    · rw [if_neg hlev]
      obtain ⟨newTxs, htxs, hsum, hlvls, _, _, _, _⟩ :=
        refRewardLoop_spec base source subId
          (get_referral_upline_chain db payer 5) db 1 hbal
      refine ⟨newTxs, htxs, ?_, ?_⟩
      · rw [hsum, list_range_map_sum_int]
        exact sum_range_shift_one
          (fun i => if levelQualifies db base i = true then
            refBonus base (levelMultiplier db i) else 0)
          (get_referral_upline_chain db payer 5).length
      · intro t ht
        obtain ⟨l, hl, hl1, hl2⟩ := hlvls t ht
        exact ⟨l, hl, hl1, by omega⟩

/-- Referral scenario database: user 200 was referred by user 100, level 1
pays multiplier 1, tariff `1m` carries a base bonus of 50 points. -/
def refChainDB : DB :=
  { emptyDB with
      referrals := [(200, 100)]
      refLevels := [⟨1, 1, true⟩]
      tariffs := [⟨"1m", some 30, none, some 50, true, true⟩] }

/-- Witness for C5 at concrete inputs. -/
theorem referral_rewards_spec_witness :
    (get_referral_upline_chain refChainDB 200 5).length ≤ 5 ∧
    ∃ newTxs : List PointsTx,
      (apply_referral_rewards_for_subscription refChainDB 200 1 "1m"
          "yookassa").1.txs = refChainDB.txs ++ newTxs ∧
      (newTxs.map PointsTx.delta).sum =
        (∑ i ∈ Finset.Icc 1 (get_referral_upline_chain refChainDB 200 5).length,
          if levelQualifies refChainDB 50 i = true then
            refBonus 50 (levelMultiplier refChainDB i) else 0) ∧
      ∀ t ∈ newTxs, ∃ l, t.level = some l ∧ 1 ≤ l ∧
          l ≤ (get_referral_upline_chain refChainDB 200 5).length :=
  referral_rewards_spec refChainDB 200 1 "1m" "yookassa"
    ⟨"1m", some 30, none, some 50, true, true⟩ 50 (by decide) (by decide) rfl rfl
    (by decide) (fun tg => le_of_eq rfl)

/-! ### Claim C2: idempotent card-webhook processing -/

theorem exists_after_update (db : DB) (sid : Nat) (exp : Int) (ev : String)
    (h : ∃ r ∈ db.subs, r.id = sid) :
    subscription_exists_by_event (update_subscription_expiration db sid exp ev)
      ev = true := by
  obtain ⟨r, hr, hid⟩ := h
  rw [subscription_exists_by_event, update_subscription_expiration]
  rw [List.any_eq_true]
  refine ⟨{ r with expires_at := exp, last_event_name := ev }, ?_, by simp⟩
  rw [List.mem_map]
  exact ⟨r, hr, by rw [if_pos (by simpa using hid)]⟩

theorem exists_after_insert (db : DB) (tg : Int)
    (period channelName vpnIp priv pub : String) (exp : Int) (ev : String) :
    subscription_exists_by_event
      (insert_subscription db tg period channelName vpnIp priv pub exp ev).1
      ev = true := by
  rw [subscription_exists_by_event, insert_subscription]
  rw [List.any_eq_true]
  exact ⟨_, List.mem_append_right _ (List.mem_singleton_self _), by simp⟩

theorem deactRowAll_last_event (ids : List Nat) (e : String) (r : Subscription) :
    (deactRowAll ids e r).last_event_name = r.last_event_name ∨
      (deactRowAll ids e r).last_event_name = e := by
  induction ids generalizing r with
  | nil => exact Or.inl rfl
  | cons sid rest ih =>
    show (deactRowAll rest e (deactRow sid e r)).last_event_name =
        r.last_event_name ∨
      (deactRowAll rest e (deactRow sid e r)).last_event_name = e
    by_cases hc : r.id == sid && r.active
    · have hstep : deactRow sid e r =
          { r with active := false, last_event_name := e } := by
        rw [deactRow, if_pos hc]
      rw [hstep]
      rcases ih { r with active := false, last_event_name := e } with h | h
      · exact Or.inr h
      · exact Or.inr h
    · rw [show deactRow sid e r = r by rw [deactRow, if_neg hc]]
      exact ih r

theorem exists_after_deactAll (db : DB) (tg : Int) (reason : String) (now : Int)
    (ev : String) (hne : reason ≠ ev)
    (h : subscription_exists_by_event db ev = false) :
    subscription_exists_by_event
      (deactivate_existing_active_subscriptions db tg reason now) ev = false := by
  rw [subscription_exists_by_event, List.any_eq_false]
  intro r hr
  rw [deactAll_subs] at hr
  obtain ⟨r0, hr0, rfl⟩ := List.mem_map.mp hr
  have h0 : r0.last_event_name ≠ ev := by
    intro hEq
    rw [subscription_exists_by_event, List.any_eq_false] at h
    exact h r0 hr0 (by simpa using hEq)
  rcases deactRowAll_last_event
      ((get_active_subscriptions_for_telegram db tg now).map Subscription.id)
      reason r0 with hcase | hcase <;>
    simp [hcase, h0, hne]

theorem activeSubs_eq_nil (db : DB) (tg now : Int)
    (h : ∀ r ∈ db.subs, isActiveFor tg now r = false) :
    get_active_subscriptions_for_telegram db tg now = [] := by
  rw [get_active_subscriptions_for_telegram,
    List.filter_eq_nil_iff.mpr (by intro a ha; simp [h a ha])]
  rfl

theorem auto_replace_ne_event (pid : String) :
    "auto_replace_yookassa" ≠ "yookassa_payment_succeeded_" ++ pid := by
  intro h
  have hlen := congrArg String.length h
  rw [String.length_append] at hlen
  rw [show "auto_replace_yookassa".length = 21 by decide,
    show "yookassa_payment_succeeded_".length = 27 by decide] at hlen
  omega

/-- Deliver the same (verified) card webhook `n` times. -/
def runYookassaDeliveries (now : Int) (paymentId : String) (tg : Int)
    (tariffCode : String) (apiCreatedAt : Option Int)
    (fetchCreatedAt : String → Option Int) (freshPriv freshPub : String)
    (wgOk : Bool) : Nat → DB → DB
  | 0, db => db
  | n + 1, db =>
    runYookassaDeliveries now paymentId tg tariffCode apiCreatedAt fetchCreatedAt
      freshPriv freshPub wgOk n
      (handle_yookassa_success db now paymentId tg tariffCode apiCreatedAt
        fetchCreatedAt freshPriv freshPub wgOk).1

/-- The state after one delivery is a fixed point of the handler. -/
theorem yookassa_fixed_point (db : DB) (now : Int) (paymentId : String) (tg : Int)
    (tariffCode : String) (apiCreatedAt : Option Int)
    (fetchCreatedAt : String → Option Int) (freshPriv freshPub : String)
    (wgOk : Bool) :
    (handle_yookassa_success
      (handle_yookassa_success db now paymentId tg tariffCode apiCreatedAt
        fetchCreatedAt freshPriv freshPub wgOk).1
      now paymentId tg tariffCode apiCreatedAt fetchCreatedAt freshPriv freshPub
      wgOk).1 =
    (handle_yookassa_success db now paymentId tg tariffCode apiCreatedAt
      fetchCreatedAt freshPriv freshPub wgOk).1 := by
  cases hdays : tariffDaysFor tariffCode with
  | none => simp only [handle_yookassa_success, hdays]
  | some days =>
    by_cases hex : subscription_exists_by_event db
        ("yookassa_payment_succeeded_" ++ paymentId) = true
    · have h1 : handle_yookassa_success db now paymentId tg tariffCode apiCreatedAt
          fetchCreatedAt freshPriv freshPub wgOk =
          (db, okResponse "ok (already processed)") := by
        unfold handle_yookassa_success
        simp only [hdays, hex, if_true]
      rw [h1]
      simp only
      rw [h1]
    · have hexf : subscription_exists_by_event db
          ("yookassa_payment_succeeded_" ++ paymentId) = false := by
        revert hex
        cases subscription_exists_by_event db
          ("yookassa_payment_succeeded_" ++ paymentId) <;> simp
      cases hfind : (get_active_subscriptions_for_telegram db tg now).find?
          isYookassaSub with
      | some ysub =>
        by_cases hstale : yookassaStaleGuard ysub paymentId apiCreatedAt
            fetchCreatedAt = true
        · have h1 : handle_yookassa_success db now paymentId tg tariffCode
              apiCreatedAt fetchCreatedAt freshPriv freshPub wgOk =
              (db, okResponse "ok (stale payment, not extended)") := by
            unfold handle_yookassa_success
            simp only [hdays, hexf, Bool.false_eq_true, if_false, hfind, hstale,
              if_true]
          rw [h1]
          simp only
          rw [h1]
        · have hstalef : yookassaStaleGuard ysub paymentId apiCreatedAt
              fetchCreatedAt = false := by
            revert hstale
            cases yookassaStaleGuard ysub paymentId apiCreatedAt fetchCreatedAt <;>
              simp
          have h1 : handle_yookassa_success db now paymentId tg tariffCode
              apiCreatedAt fetchCreatedAt freshPriv freshPub wgOk =
              (update_subscription_expiration db ysub.id
                (extendedExpiry ysub.expires_at now days)
                ("yookassa_payment_succeeded_" ++ paymentId),
               okResponse "ok (extended)") := by
            unfold handle_yookassa_success
            simp only [hdays, hexf, Bool.false_eq_true, if_false, hfind, hstalef]
          have hysub : ysub ∈ db.subs := by
            have hmem := List.mem_of_find?_eq_some hfind
            exact ((mem_active_subs db tg now ysub).mp hmem).1
          have hex1 := exists_after_update db ysub.id
            (extendedExpiry ysub.expires_at now days)
            ("yookassa_payment_succeeded_" ++ paymentId) ⟨ysub, hysub, rfl⟩
          rw [h1]
          simp only
          unfold handle_yookassa_success
          simp only [hdays, hex1, if_true]
      | none =>
        have hnoact := deactAll_no_active db tg "auto_replace_yookassa" now
        have hex1 : subscription_exists_by_event
            (deactivate_existing_active_subscriptions db tg
              "auto_replace_yookassa" now)
            ("yookassa_payment_succeeded_" ++ paymentId) = false :=
          exists_after_deactAll db tg "auto_replace_yookassa" now _
            (auto_replace_ne_event paymentId) hexf
        have hnil : get_active_subscriptions_for_telegram
            (deactivate_existing_active_subscriptions db tg
              "auto_replace_yookassa" now) tg now = [] :=
          activeSubs_eq_nil _ tg now hnoact
        have hself : deactivate_existing_active_subscriptions
            (deactivate_existing_active_subscriptions db tg
              "auto_replace_yookassa" now) tg "auto_replace_yookassa" now =
            deactivate_existing_active_subscriptions db tg
              "auto_replace_yookassa" now :=
          deactAll_eq_self _ tg "auto_replace_yookassa" now hnoact
        cases hip : generate_client_ip
            (deactivate_existing_active_subscriptions db tg
              "auto_replace_yookassa" now) now with
        | none =>
          have h1 : handle_yookassa_success db now paymentId tg tariffCode
              apiCreatedAt fetchCreatedAt freshPriv freshPub wgOk =
              (deactivate_existing_active_subscriptions db tg
                "auto_replace_yookassa" now,
               okResponse "ok (wg gen error)") := by
            unfold handle_yookassa_success
            simp only [hdays, hexf, Bool.false_eq_true, if_false, hfind, hip]
          rw [h1]
          simp only
          unfold handle_yookassa_success
          simp only [hdays, hex1, Bool.false_eq_true, if_false, hnil,
            List.find?_nil, hself, hip]
        | some ip =>
          cases wgOk with
          | false =>
            have h1 : handle_yookassa_success db now paymentId tg tariffCode
                apiCreatedAt fetchCreatedAt freshPriv freshPub false =
                (deactivate_existing_active_subscriptions db tg
                  "auto_replace_yookassa" now,
                 okResponse "ok (wg add error)") := by
              unfold handle_yookassa_success
              simp only [hdays, hexf, Bool.false_eq_true, if_false, hfind, hip,
                Bool.not_false, if_true]
            rw [h1]
            simp only
            unfold handle_yookassa_success
            simp only [hdays, hex1, Bool.false_eq_true, if_false, hnil,
              List.find?_nil, hself, hip, Bool.not_false, if_true]
          | true =>
            have h1 : handle_yookassa_success db now paymentId tg tariffCode
                apiCreatedAt fetchCreatedAt freshPriv freshPub true =
                ((insert_subscription
                    (deactivate_existing_active_subscriptions db tg
                      "auto_replace_yookassa" now)
                    tg ("yookassa_" ++ tariffCode) "YooKassa" ip freshPriv
                    freshPub (now + days * 86400)
                    ("yookassa_payment_succeeded_" ++ paymentId)).1,
                 okResponse "ok") := by
              unfold handle_yookassa_success
              simp only [hdays, hexf, Bool.false_eq_true, if_false, hfind, hip,
                Bool.not_true, Bool.false_eq_true, if_false]
            have hex2 := exists_after_insert
              (deactivate_existing_active_subscriptions db tg
                "auto_replace_yookassa" now)
              tg ("yookassa_" ++ tariffCode) "YooKassa" ip freshPriv freshPub
              (now + days * 86400) ("yookassa_payment_succeeded_" ++ paymentId)
            rw [h1]
            simp only
            unfold handle_yookassa_success
            simp only [hdays, hex2, if_true]

theorem runYookassaDeliveries_fixed (now : Int) (paymentId : String) (tg : Int)
    (tariffCode : String) (apiCreatedAt : Option Int)
    (fetchCreatedAt : String → Option Int) (freshPriv freshPub : String)
    (wgOk : Bool) (n : Nat) (db : DB) :
    runYookassaDeliveries now paymentId tg tariffCode apiCreatedAt fetchCreatedAt
        freshPriv freshPub wgOk n
        (handle_yookassa_success db now paymentId tg tariffCode apiCreatedAt
          fetchCreatedAt freshPriv freshPub wgOk).1 =
      (handle_yookassa_success db now paymentId tg tariffCode apiCreatedAt
        fetchCreatedAt freshPriv freshPub wgOk).1 := by
  induction n generalizing db with
  | zero => rfl
  | succ m ih =>
    show runYookassaDeliveries now paymentId tg tariffCode apiCreatedAt
        fetchCreatedAt freshPriv freshPub wgOk m
        (handle_yookassa_success
          (handle_yookassa_success db now paymentId tg tariffCode apiCreatedAt
            fetchCreatedAt freshPriv freshPub wgOk).1
          now paymentId tg tariffCode apiCreatedAt fetchCreatedAt freshPriv
          freshPub wgOk).1 = _
    rw [yookassa_fixed_point db now paymentId tg tariffCode apiCreatedAt
      fetchCreatedAt freshPriv freshPub wgOk]
    exact ih db

/-- C2: before any mutation the card-webhook handler consults the idempotency
gate — if a subscription row already carries the derived event name it
answers `ok (already processed)` leaving the database untouched — and
consequently delivering the same verified webhook `n ≥ 1` times leaves
exactly the state of one delivery. -/
theorem yookassa_webhook_idempotent (db : DB) (now : Int) (paymentId : String)
    (tg : Int) (tariffCode : String) (days : Int) (apiCreatedAt : Option Int)
    (fetchCreatedAt : String → Option Int) (freshPriv freshPub : String)
    (wgOk : Bool)
    (hdays : tariffDaysFor tariffCode = some days) :
    (subscription_exists_by_event db
        ("yookassa_payment_succeeded_" ++ paymentId) = true →
      handle_yookassa_success db now paymentId tg tariffCode apiCreatedAt
          fetchCreatedAt freshPriv freshPub wgOk =
        (db, okResponse "ok (already processed)")) ∧
    ∀ n, 1 ≤ n →
      runYookassaDeliveries now paymentId tg tariffCode apiCreatedAt
          fetchCreatedAt freshPriv freshPub wgOk n db =
        runYookassaDeliveries now paymentId tg tariffCode apiCreatedAt
          fetchCreatedAt freshPriv freshPub wgOk 1 db := by
  constructor
  · intro hex'
    unfold handle_yookassa_success
    simp only [hdays, hex', if_true]
  · intro n hn
    obtain ⟨m, rfl⟩ : ∃ m, n = m + 1 := ⟨n - 1, by omega⟩
    show runYookassaDeliveries now paymentId tg tariffCode apiCreatedAt
        fetchCreatedAt freshPriv freshPub wgOk m
        (handle_yookassa_success db now paymentId tg tariffCode apiCreatedAt
          fetchCreatedAt freshPriv freshPub wgOk).1 = _
    rw [runYookassaDeliveries_fixed]
    rfl

/-- A database that has already processed YooKassa payment `p1`. -/
def processedDB : DB :=
  { emptyDB with
      subs := [{ id := 1, telegram_user_id := 100, period := "yookassa_1m"
                 channel_name := "YooKassa", vpn_ip := "10.8.0.2"
                 wg_private_key := "privA", wg_public_key := "pubA"
                 expires_at := 100 * 86400, active := true
                 last_event_name := "yookassa_payment_succeeded_p1" }]
      nextId := 2 }

/-- Witness for C2 at concrete inputs. -/
theorem yookassa_webhook_idempotent_witness :
    (handle_yookassa_success processedDB 0 "p1" 100 "1m" none (fun _ => none)
        "privB" "pubB" true = (processedDB, okResponse "ok (already processed)")) ∧
    runYookassaDeliveries 0 "p1" 100 "1m" none (fun _ => none) "privB" "pubB"
        true 3 processedDB =
      runYookassaDeliveries 0 "p1" 100 "1m" none (fun _ => none) "privB" "pubB"
        true 1 processedDB :=
  ⟨(yookassa_webhook_idempotent processedDB 0 "p1" 100 "1m" 30 none
      (fun _ => none) "privB" "pubB" true (by decide)).1 (by decide),
   (yookassa_webhook_idempotent processedDB 0 "p1" 100 "1m" 30 none
      (fun _ => none) "privB" "pubB" true (by decide)).2 3 (by omega)⟩

/-! ### Claim C1: the one-active-subscription invariant -/

theorem length_filter_le_of_imp (l : List Subscription) (p q : Subscription → Bool)
    (h : ∀ r ∈ l, p r = true → q r = true) :
    (l.filter p).length ≤ (l.filter q).length := by
  induction l with
  | nil => simp
  | cons r rest ih =>
    have ih' := ih (fun x hx => h x (List.mem_cons_of_mem r hx))
    simp only [List.filter_cons]
    by_cases h1 : p r = true
    · have h2 := h r (List.mem_cons_self r rest) h1
      simp only [h1, h2, if_true, List.length_cons]
      omega
    · have h1f : p r = false := by revert h1; cases p r <;> simp
      simp only [h1f, Bool.false_eq_true, if_false]
      by_cases h2 : q r = true
      · simp only [h2, if_true, List.length_cons]
        omega
      · have h2f : q r = false := by revert h2; cases q r <;> simp
        simp only [h2f, Bool.false_eq_true, if_false]
        exact ih'

/-- The count of active not-yet-expired rows only shrinks as time passes. -/
theorem countActive_mono (db : DB) (tg : Int) (t t' : Int) (h : t ≤ t') :
    countActive db tg t' ≤ countActive db tg t := by
  refine length_filter_le_of_imp db.subs _ _ ?_
  intro r _ hp
  rw [isActiveFor] at hp ⊢
  simp only [Bool.and_eq_true, decide_eq_true_eq] at hp ⊢
  exact ⟨hp.1, by omega⟩

theorem countActive_congr (db db' : DB) (h : db'.subs = db.subs) (tg now : Int) :
    countActive db' tg now = countActive db tg now := by
  rw [countActive, countActive, h]

theorem SubsWF_congr (db db' : DB) (h1 : db'.subs = db.subs)
    (h2 : db'.nextId = db.nextId) (h : SubsWF db) : SubsWF db' := by
  constructor
  · rw [h1]; exact h.1
  · intro s hs
    rw [h1] at hs
    rw [h2]
    exact h.2 s hs

theorem tariffDaysFor_pos (code : String) (d : Int)
    (h : tariffDaysFor code = some d) : 0 < d := by
  rw [tariffDaysFor] at h
  obtain ⟨p, hp, hval⟩ := Option.map_eq_some'.mp h
  have hmem := List.mem_of_find?_eq_some hp
  have hall : ∀ q ∈ TARIFF_DAYS, 0 < q.2 := by decide
  have := hall p hmem
  omega

theorem add_points_subs_next (db : DB) (tg delta : Int) (reason source : String)
    (relSub : Option Nat) (level : Option Nat) (allowNegative : Bool) :
    (add_points db tg delta reason source relSub level allowNegative).1.subs =
        db.subs ∧
    (add_points db tg delta reason source relSub level allowNegative).1.nextId =
        db.nextId := by
  simp only [add_points]
  by_cases h0 : (delta == 0) = true
  · rw [if_pos h0]; exact ⟨rfl, rfl⟩
  · rw [if_neg h0]
    by_cases hneg : (!allowNegative && decide (balanceOf db tg + delta < 0)) = true
    · rw [if_pos hneg]; exact ⟨rfl, rfl⟩
    · rw [if_neg hneg]; exact ⟨rfl, rfl⟩

theorem refRewardLoop_subs_next (base : Int) (source : String) (subId : Nat) :
    ∀ (chain : List Int) (db : DB) (level : Nat),
      (refRewardLoop base source subId db level chain).1.subs = db.subs ∧
      (refRewardLoop base source subId db level chain).1.nextId = db.nextId := by
  intro chain
  induction chain with
  | nil => intro db level; exact ⟨rfl, rfl⟩
  | cons referrer rest ih =>
    intro db level
    by_cases hq : levelQualifies db base level = true
    · simp only [refRewardLoop, hq, if_true]
      have h1 := add_points_subs_next db referrer
        (refBonus base (levelMultiplier db level))
        ("ref_level_" ++ toString level) source (some subId) (some level) false
      have h2 := ih (add_points db referrer
        (refBonus base (levelMultiplier db level))
        ("ref_level_" ++ toString level) source (some subId) (some level)
        false).1 (level + 1)
      exact ⟨h2.1.trans h1.1, h2.2.trans h1.2⟩
    · simp only [refRewardLoop]
      rw [if_neg hq]
      exact ih db (level + 1)

theorem get_sub_by_event_pick_mem (l : List Subscription) :
    ∀ (acc : Option Subscription) (s : Subscription),
      l.foldl (fun acc s =>
        match acc with
        | none => some s
        | some b => if b.id ≤ s.id then some s else some b) acc = some s →
      acc = some s ∨ s ∈ l := by
  induction l with
  | nil => intro acc s h; exact Or.inl h
  | cons b rest ih =>
    intro acc s h
    have := ih _ s h
    rcases this with hacc | hmem
    · cases acc with
      | none =>
        simp only at hacc
        exact Or.inr (List.mem_cons.mpr (Or.inl (Option.some_inj.mp hacc).symm))
      | some c =>
        simp only at hacc
        by_cases hc : c.id ≤ b.id
        · rw [if_pos hc] at hacc
          exact Or.inr (List.mem_cons.mpr (Or.inl (Option.some_inj.mp hacc).symm))
        · rw [if_neg hc] at hacc
          exact Or.inl hacc
    · exact Or.inr (List.mem_cons_of_mem b hmem)

theorem get_subscription_by_event_mem (db : DB) (ev : String) (s : Subscription)
    (h : get_subscription_by_event db ev = some s) : s ∈ db.subs := by
  rw [get_subscription_by_event] at h
  rcases get_sub_by_event_pick_mem _ none s h with hacc | hmem
  · cases hacc
  · exact List.mem_of_mem_filter hmem

theorem daysToRevert_nonneg (D : Int) (R A : ℚ) (hD : 0 < D) :
    0 ≤ daysToRevert D R A := by
  simp only [daysToRevert]
  by_cases h1 : (decide (A ≤ 0) || decide (R ≤ 0)) = true
  · rw [if_pos h1]; omega
  · rw [if_neg h1]
    by_cases h2 : (decide (pyTrunc (decMulInt D
        (if 1 < decDiv R A then 1 else decDiv R A)) ≤ 0) && decide (0 < R)) = true
    · rw [if_pos h2]; omega
    · rw [if_neg h2]
      simp only [Bool.or_eq_true, decide_eq_true_eq, not_or] at h1
      simp only [Bool.and_eq_true, decide_eq_true_eq, not_and] at h2
      have hR : 0 < R := not_le.mp h1.2
      by_cases hd : pyTrunc (decMulInt D
          (if 1 < decDiv R A then 1 else decDiv R A)) ≤ 0
      · exact absurd hR (h2 hd)
      · omega

theorem refundDaysForTariff_pos (tcp : Option String) (sub : Subscription)
    (d : Int) (h : refundDaysForTariff tcp sub = some d) : 0 < d := by
  rw [refundDaysForTariff] at h
  cases hb : tcp.bind tariffDaysFor with
  | some d0 =>
    rw [hb] at h
    obtain ⟨c, _, hc⟩ := Option.bind_eq_some.mp hb
    have := tariffDaysFor_pos c d0 hc
    simp only [Option.some_inj] at h
    omega
  | none =>
    rw [hb] at h
    by_cases hsw : sub.period.startsWith "yookassa_" = true
    · rw [if_pos hsw] at h
      exact tariffDaysFor_pos _ d h
    · rw [if_neg hsw] at h
      cases h

theorem extendedExpiry_gt (oldExp now days : Int) (h : 0 < days) :
    now < extendedExpiry oldExp now days := by
  rw [extendedExpiry]
  by_cases hc : now < oldExp
  · rw [if_pos hc]; omega
  · rw [if_neg hc]; omega

/-- The two-part state invariant: well-formed ids and at most one active
not-yet-expired subscription per user. -/
theorem inv_deactAll (db : DB) (tg : Int) (e : String) (now : Int)
    (hwf : SubsWF db) (hinv : ∀ t, countActive db t now ≤ 1) :
    SubsWF (deactivate_existing_active_subscriptions db tg e now) ∧
    ∀ t, countActive (deactivate_existing_active_subscriptions db tg e now)
      t now ≤ 1 :=
  ⟨SubsWF_deactAll db tg e now hwf,
   fun t => le_trans (countActive_deactAll_le db tg e now t now) (hinv t)⟩

/-- Deactivate-then-insert (the create path of every provisioning flow)
keeps the invariant: the new user ends with exactly the fresh row, everybody
else is untouched. -/
theorem inv_create (db : DB) (tg : Int) (e : String) (now : Int)
    (period channelName vpnIp priv pub : String) (expiresAt : Int) (ev : String)
    (hwf : SubsWF db) (hinv : ∀ t, countActive db t now ≤ 1) :
    SubsWF (insert_subscription
      (deactivate_existing_active_subscriptions db tg e now)
      tg period channelName vpnIp priv pub expiresAt ev).1 ∧
    ∀ t, countActive (insert_subscription
      (deactivate_existing_active_subscriptions db tg e now)
      tg period channelName vpnIp priv pub expiresAt ev).1 t now ≤ 1 := by
  refine ⟨SubsWF_insert _ tg period channelName vpnIp priv pub expiresAt ev
    (SubsWF_deactAll db tg e now hwf), fun t => ?_⟩
  by_cases ht : tg = t
  · subst ht
    have h1 := countActive_insert_self
      (deactivate_existing_active_subscriptions db tg e now) tg period
      channelName vpnIp priv pub expiresAt ev now
    have h2 := countActive_deactAll_self db tg e now
    omega
  · rw [countActive_insert_other _ tg period channelName vpnIp priv pub
      expiresAt ev t now ht]
    exact le_trans (countActive_deactAll_le db tg e now t now) (hinv t)

/-- Extending a currently active subscription into the future keeps the
invariant (the row stays active, no new row appears). -/
theorem inv_update_active (db : DB) (sub : Subscription) (newExp : Int)
    (ev : String) (now : Int) (hwf : SubsWF db)
    (hinv : ∀ t, countActive db t now ≤ 1) (hmem : sub ∈ db.subs)
    (hexp : now < sub.expires_at) (hnew : now < newExp) :
    SubsWF (update_subscription_expiration db sub.id newExp ev) ∧
    ∀ t, countActive (update_subscription_expiration db sub.id newExp ev)
      t now ≤ 1 := by
  refine ⟨SubsWF_update db sub.id newExp ev hwf, fun t => ?_⟩
  rw [countActive_update_eq db sub newExp ev now (SubsWF_uniq db hwf sub hmem)
    hexp hnew t]
  exact hinv t

/-- Shortening a subscription keeps the invariant. -/
theorem inv_update_shorten (db : DB) (sub : Subscription) (newExp : Int)
    (ev : String) (now : Int) (hwf : SubsWF db)
    (hinv : ∀ t, countActive db t now ≤ 1) (hmem : sub ∈ db.subs)
    (hle : newExp ≤ sub.expires_at) :
    SubsWF (update_subscription_expiration db sub.id newExp ev) ∧
    ∀ t, countActive (update_subscription_expiration db sub.id newExp ev)
      t now ≤ 1 :=
  ⟨SubsWF_update db sub.id newExp ev hwf,
   fun t => le_trans (countActive_update_le db sub newExp ev now
     (SubsWF_uniq db hwf sub hmem) hle t) (hinv t)⟩

/-- Deactivating one subscription keeps the invariant. -/
theorem inv_deact1 (db : DB) (sid : Nat) (e : String) (now : Int)
    (hwf : SubsWF db) (hinv : ∀ t, countActive db t now ≤ 1) :
    SubsWF (deactivate_subscription_by_id db sid e).1 ∧
    ∀ t, countActive (deactivate_subscription_by_id db sid e).1 t now ≤ 1 :=
  ⟨SubsWF_deact1 db sid e hwf,
   fun t => le_trans (countActive_deact1_le db sid e t now) (hinv t)⟩

/-- `add_points` never touches the subscription table. -/
theorem inv_add_points (db : DB) (tg delta : Int) (reason source : String)
    (relSub : Option Nat) (level : Option Nat) (allowNeg : Bool) (now : Int)
    (hwf : SubsWF db) (hinv : ∀ t, countActive db t now ≤ 1) :
    SubsWF (add_points db tg delta reason source relSub level allowNeg).1 ∧
    ∀ t, countActive (add_points db tg delta reason source relSub level
      allowNeg).1 t now ≤ 1 := by
  have h := add_points_subs_next db tg delta reason source relSub level allowNeg
  refine ⟨SubsWF_congr db _ h.1 h.2 hwf, fun t => ?_⟩
  rw [countActive_congr db _ h.1 t now]
  exact hinv t

/-- The referral-reward engine never touches the subscription table. -/
theorem apply_referral_subs_next (db : DB) (payer : Int) (subId : Nat)
    (tariffCode paymentSource : String) :
    (apply_referral_rewards_for_subscription db payer subId tariffCode
      paymentSource).1.subs = db.subs ∧
    (apply_referral_rewards_for_subscription db payer subId tariffCode
      paymentSource).1.nextId = db.nextId := by
  rw [apply_referral_rewards_for_subscription]
  by_cases hblock : is_user_referral_blocked db payer = true
  · rw [if_pos hblock]; exact ⟨rfl, rfl⟩
  · rw [if_neg hblock]
    cases htar : get_tariff_for_referral_by_code db tariffCode with
    | none => exact ⟨rfl, rfl⟩
    | some tariff =>
      simp only
      by_cases hen : (!tariff.ref_enabled ||
          decide (tariff.ref_base_bonus_points.getD 0 ≤ 0)) = true
      · rw [if_pos hen]; exact ⟨rfl, rfl⟩
      · rw [if_neg hen]
        by_cases hup : (get_referral_upline_chain db payer 5).isEmpty = true
        · rw [if_pos hup]; exact ⟨rfl, rfl⟩
        · rw [if_neg hup]
          by_cases hlv : db.refLevels.isEmpty = true
          · rw [if_pos hlv]; exact ⟨rfl, rfl⟩
          · rw [if_neg hlv]
            exact refRewardLoop_subs_next _ paymentSource subId _ db 1

/-- The YooKassa `payment.succeeded` handler keeps the invariant. -/
theorem inv_yookassa (db : DB) (now : Int) (paymentId : String) (tg : Int)
    (tariffCode : String) (apiCreatedAt : Option Int)
    (fetchCreatedAt : String → Option Int) (freshPriv freshPub : String)
    (wgOk : Bool) (hwf : SubsWF db) (hinv : ∀ t, countActive db t now ≤ 1) :
    SubsWF (handle_yookassa_success db now paymentId tg tariffCode apiCreatedAt
      fetchCreatedAt freshPriv freshPub wgOk).1 ∧
    ∀ t, countActive (handle_yookassa_success db now paymentId tg tariffCode
      apiCreatedAt fetchCreatedAt freshPriv freshPub wgOk).1 t now ≤ 1 := by
  cases hdays : tariffDaysFor tariffCode with
  | none =>
    have h1 : handle_yookassa_success db now paymentId tg tariffCode apiCreatedAt
        fetchCreatedAt freshPriv freshPub wgOk =
        (db, okResponse "ok (unknown tariff)") := by
      unfold handle_yookassa_success
      simp only [hdays]
    rw [h1]
    exact ⟨hwf, hinv⟩
  | some days =>
    have hdpos : 0 < days := tariffDaysFor_pos tariffCode days hdays
    by_cases hex : subscription_exists_by_event db
        ("yookassa_payment_succeeded_" ++ paymentId) = true
    · have h1 : handle_yookassa_success db now paymentId tg tariffCode apiCreatedAt
          fetchCreatedAt freshPriv freshPub wgOk =
          (db, okResponse "ok (already processed)") := by
        unfold handle_yookassa_success
        simp only [hdays, hex, if_true]
      rw [h1]
      exact ⟨hwf, hinv⟩
    · have hexf : subscription_exists_by_event db
          ("yookassa_payment_succeeded_" ++ paymentId) = false := by
        revert hex
        cases subscription_exists_by_event db
          ("yookassa_payment_succeeded_" ++ paymentId) <;> simp
      cases hfind : (get_active_subscriptions_for_telegram db tg now).find?
          isYookassaSub with
      | some ysub =>
        by_cases hstale : yookassaStaleGuard ysub paymentId apiCreatedAt
            fetchCreatedAt = true
        · have h1 : handle_yookassa_success db now paymentId tg tariffCode
              apiCreatedAt fetchCreatedAt freshPriv freshPub wgOk =
              (db, okResponse "ok (stale payment, not extended)") := by
            unfold handle_yookassa_success
            simp only [hdays, hexf, Bool.false_eq_true, if_false, hfind, hstale,
              if_true]
          rw [h1]
          exact ⟨hwf, hinv⟩
        · have hstalef : yookassaStaleGuard ysub paymentId apiCreatedAt
              fetchCreatedAt = false := by
            revert hstale
            cases yookassaStaleGuard ysub paymentId apiCreatedAt fetchCreatedAt <;>
              simp
          have h1 : handle_yookassa_success db now paymentId tg tariffCode
              apiCreatedAt fetchCreatedAt freshPriv freshPub wgOk =
              (update_subscription_expiration db ysub.id
                (extendedExpiry ysub.expires_at now days)
                ("yookassa_payment_succeeded_" ++ paymentId),
               okResponse "ok (extended)") := by
            unfold handle_yookassa_success
            simp only [hdays, hexf, Bool.false_eq_true, if_false, hfind, hstalef]
          rw [h1]
          have hmm := (mem_active_subs db tg now ysub).mp
            (List.mem_of_find?_eq_some hfind)
          exact inv_update_active db ysub _ _ now hwf hinv hmm.1
            (isActiveFor_expires hmm.2)
            (extendedExpiry_gt ysub.expires_at now days hdpos)
      | none =>
        cases hip : generate_client_ip (deactivate_existing_active_subscriptions
            db tg "auto_replace_yookassa" now) now with
        | none =>
          have h1 : handle_yookassa_success db now paymentId tg tariffCode
              apiCreatedAt fetchCreatedAt freshPriv freshPub wgOk =
              (deactivate_existing_active_subscriptions db tg
                "auto_replace_yookassa" now,
               okResponse "ok (wg gen error)") := by
            unfold handle_yookassa_success
            simp only [hdays, hexf, Bool.false_eq_true, if_false, hfind, hip]
          rw [h1]
          exact inv_deactAll db tg "auto_replace_yookassa" now hwf hinv
        | some clientIp =>
          cases wgOk with
          | false =>
            have h1 : handle_yookassa_success db now paymentId tg tariffCode
                apiCreatedAt fetchCreatedAt freshPriv freshPub false =
                (deactivate_existing_active_subscriptions db tg
                  "auto_replace_yookassa" now,
                 okResponse "ok (wg add error)") := by
              unfold handle_yookassa_success
              simp only [hdays, hexf, Bool.false_eq_true, if_false, hfind, hip,
                Bool.not_false, if_true]
            rw [h1]
            exact inv_deactAll db tg "auto_replace_yookassa" now hwf hinv
          | true =>
            have h1 : handle_yookassa_success db now paymentId tg tariffCode
                apiCreatedAt fetchCreatedAt freshPriv freshPub true =
                ((insert_subscription (deactivate_existing_active_subscriptions
                    db tg "auto_replace_yookassa" now) tg
                    ("yookassa_" ++ tariffCode) "YooKassa" clientIp freshPriv
                    freshPub (now + days * 86400)
                    ("yookassa_payment_succeeded_" ++ paymentId)).1,
                 okResponse "ok") := by
              unfold handle_yookassa_success
              simp only [hdays, hexf, Bool.false_eq_true, if_false, hfind, hip,
                Bool.not_true]
            rw [h1]
            exact inv_create db tg "auto_replace_yookassa" now
              ("yookassa_" ++ tariffCode) "YooKassa" clientIp freshPriv freshPub
              (now + days * 86400) ("yookassa_payment_succeeded_" ++ paymentId)
              hwf hinv

/-- The Heleket `paid` handler keeps the invariant. -/
theorem inv_heleket (db : DB) (now : Int) (uuid : String) (tg : Int)
    (tariffCode : String) (freshPriv freshPub : String) (wgOk : Bool)
    (hwf : SubsWF db) (hinv : ∀ t, countActive db t now ≤ 1) :
    SubsWF (handle_heleket_paid db now uuid tg tariffCode freshPriv freshPub
      wgOk).1 ∧
    ∀ t, countActive (handle_heleket_paid db now uuid tg tariffCode freshPriv
      freshPub wgOk).1 t now ≤ 1 := by
  cases hdays : tariffDaysFor tariffCode with
  | none =>
    have h1 : handle_heleket_paid db now uuid tg tariffCode freshPriv freshPub
        wgOk = (db, okResponse "ok (unknown tariff)") := by
      unfold handle_heleket_paid
      simp only [hdays]
    rw [h1]
    exact ⟨hwf, hinv⟩
  | some days =>
    have hdpos : 0 < days := tariffDaysFor_pos tariffCode days hdays
    by_cases hex : subscription_exists_by_event db
        ("heleket_payment_paid_" ++ uuid) = true
    · have h1 : handle_heleket_paid db now uuid tg tariffCode freshPriv freshPub
          wgOk = (db, okResponse "ok (already processed)") := by
        unfold handle_heleket_paid
        simp only [hdays, hex, if_true]
      rw [h1]
      exact ⟨hwf, hinv⟩
    · have hexf : subscription_exists_by_event db
          ("heleket_payment_paid_" ++ uuid) = false := by
        revert hex
        cases subscription_exists_by_event db ("heleket_payment_paid_" ++ uuid) <;>
          simp
      have hextend : ∀ baseSub : Subscription,
          baseSub ∈ get_active_subscriptions_for_telegram db tg now →
          SubsWF (update_subscription_expiration db baseSub.id
            (extendedExpiry baseSub.expires_at now days)
            ("heleket_payment_paid_" ++ uuid)) ∧
          ∀ t, countActive (update_subscription_expiration db baseSub.id
            (extendedExpiry baseSub.expires_at now days)
            ("heleket_payment_paid_" ++ uuid)) t now ≤ 1 := by
        intro baseSub hmemAct
        have hmm := (mem_active_subs db tg now baseSub).mp hmemAct
        exact inv_update_active db baseSub _ _ now hwf hinv hmm.1
          (isActiveFor_expires hmm.2)
          (extendedExpiry_gt baseSub.expires_at now days hdpos)
      cases hfind : (get_active_subscriptions_for_telegram db tg now).find?
          isHeleketSub with
      | some hsub =>
        have h1 : handle_heleket_paid db now uuid tg tariffCode freshPriv
            freshPub wgOk =
            (update_subscription_expiration db hsub.id
              (extendedExpiry hsub.expires_at now days)
              ("heleket_payment_paid_" ++ uuid),
             okResponse "ok (extended)") := by
          unfold handle_heleket_paid
          simp only [hdays, hexf, Bool.false_eq_true, if_false, hfind]
        rw [h1]
        exact hextend hsub (List.mem_of_find?_eq_some hfind)
      | none =>
        cases hhead : (get_active_subscriptions_for_telegram db tg now).head? with
        | some bsub =>
          have h1 : handle_heleket_paid db now uuid tg tariffCode freshPriv
              freshPub wgOk =
              (update_subscription_expiration db bsub.id
                (extendedExpiry bsub.expires_at now days)
                ("heleket_payment_paid_" ++ uuid),
               okResponse "ok (extended)") := by
            unfold handle_heleket_paid
            simp only [hdays, hexf, Bool.false_eq_true, if_false, hfind, hhead]
          rw [h1]
          exact hextend bsub (List.mem_of_mem_head? hhead)
        | none =>
          cases hip : generate_client_ip (deactivate_existing_active_subscriptions
              db tg "auto_replace_heleket" now) now with
          | none =>
            have h1 : handle_heleket_paid db now uuid tg tariffCode freshPriv
                freshPub wgOk =
                (deactivate_existing_active_subscriptions db tg
                  "auto_replace_heleket" now,
                 okResponse "ok (wg gen error)") := by
              unfold handle_heleket_paid
              simp only [hdays, hexf, Bool.false_eq_true, if_false, hfind, hhead,
                hip]
            rw [h1]
            exact inv_deactAll db tg "auto_replace_heleket" now hwf hinv
          | some clientIp =>
            cases wgOk with
            | false =>
              have h1 : handle_heleket_paid db now uuid tg tariffCode freshPriv
                  freshPub false =
                  (deactivate_existing_active_subscriptions db tg
                    "auto_replace_heleket" now,
                   okResponse "ok (wg add error)") := by
                unfold handle_heleket_paid
                simp only [hdays, hexf, Bool.false_eq_true, if_false, hfind,
                  hhead, hip, Bool.not_false, if_true]
              rw [h1]
              exact inv_deactAll db tg "auto_replace_heleket" now hwf hinv
            | true =>
              have h1 : handle_heleket_paid db now uuid tg tariffCode freshPriv
                  freshPub true =
                  ((insert_subscription (deactivate_existing_active_subscriptions
                      db tg "auto_replace_heleket" now) tg
                      ("heleket_" ++ tariffCode) "Heleket" clientIp freshPriv
                      freshPub (now + days * 86400)
                      ("heleket_payment_paid_" ++ uuid)).1,
                   okResponse "ok") := by
                unfold handle_heleket_paid
                simp only [hdays, hexf, Bool.false_eq_true, if_false, hfind,
                  hhead, hip, Bool.not_true]
              rw [h1]
              exact inv_create db tg "auto_replace_heleket" now
                ("heleket_" ++ tariffCode) "Heleket" clientIp freshPriv freshPub
                (now + days * 86400) ("heleket_payment_paid_" ++ uuid) hwf hinv

/-- The 7-day referral trial keeps the invariant. -/
theorem inv_trial (db : DB) (now : Int) (tg : Int) (freshPriv freshPub : String)
    (wgOk : Bool) (hwf : SubsWF db) (hinv : ∀ t, countActive db t now ≤ 1) :
    SubsWF (try_give_referral_trial_7d db now tg freshPriv freshPub wgOk) ∧
    ∀ t, countActive (try_give_referral_trial_7d db now tg freshPriv freshPub
      wgOk) t now ≤ 1 := by
  rw [try_give_referral_trial_7d]
  by_cases hl : (get_latest_subscription_for_telegram db tg now).isSome = true
  · rw [if_pos hl]
    exact ⟨hwf, hinv⟩
  · rw [if_neg hl]
    by_cases htr : has_referral_trial_subscription db tg = true
    · rw [if_pos htr]
      exact ⟨hwf, hinv⟩
    · rw [if_neg htr]
      cases hip : generate_client_ip (deactivate_existing_active_subscriptions
          db tg "auto_replace_referral_trial_7d" now) now with
      | none =>
        simp only [hip]
        exact inv_deactAll db tg "auto_replace_referral_trial_7d" now hwf hinv
      | some clientIp =>
        cases wgOk with
        | false =>
          simp only [hip, Bool.not_false, if_true]
          exact inv_deactAll db tg "auto_replace_referral_trial_7d" now hwf hinv
        | true =>
          simp only [hip, Bool.not_true, Bool.false_eq_true, if_false]
          exact inv_create db tg "auto_replace_referral_trial_7d" now
            "referral_trial_7d" "Referral trial" clientIp freshPriv freshPub
            (now + 7 * 86400) "referral_free_trial_7d" hwf hinv

/-- The YooKassa `refund.succeeded` handler keeps the invariant: it only
deactivates or shortens. -/
theorem inv_refund (db : DB) (now : Int) (refundId origPaymentId : String)
    (refundAmount totalAmount : ℚ) (tariffCodeFromPayment : Option String)
    (apiTgId : Option Int) (hwf : SubsWF db)
    (hinv : ∀ t, countActive db t now ≤ 1) :
    SubsWF (handle_yookassa_refund db now refundId origPaymentId refundAmount
      totalAmount tariffCodeFromPayment apiTgId).1 ∧
    ∀ t, countActive (handle_yookassa_refund db now refundId origPaymentId
      refundAmount totalAmount tariffCodeFromPayment apiTgId).1 t now ≤ 1 := by
  simp only [handle_yookassa_refund]
  by_cases hex : subscription_exists_by_event db
      ("yookassa_refund_succeeded_" ++ refundId) = true
  · rw [if_pos hex]
    exact ⟨hwf, hinv⟩
  · rw [if_neg hex]
    cases hget : get_subscription_by_event db
        ("yookassa_payment_succeeded_" ++ origPaymentId) with
    | some sub =>
      simp only []
      have hmem : sub ∈ db.subs := get_subscription_by_event_mem db _ sub hget
      cases hdt : refundDaysForTariff tariffCodeFromPayment sub with
      | none =>
        simp only []
        exact inv_deact1 db sub.id _ now hwf hinv
      | some daysForTariff =>
        simp only []
        have hD := refundDaysForTariff_pos tariffCodeFromPayment sub
          daysForTariff hdt
        have hd0 := daysToRevert_nonneg daysForTariff refundAmount totalAmount hD
        by_cases hnow : sub.expires_at -
            daysToRevert daysForTariff refundAmount totalAmount * 86400 ≤ now
        · rw [if_pos hnow]
          exact inv_deact1 db sub.id _ now hwf hinv
        · rw [if_neg hnow]
          exact inv_update_shorten db sub _ _ now hwf hinv hmem (by omega)
    | none =>
      cases apiTgId with
      | none =>
        simp only []
        exact ⟨hwf, hinv⟩
      | some tid =>
        simp only []
        cases hfind : (get_active_subscriptions_for_telegram db tid now).find?
            isYookassaSub with
        | none =>
          simp only []
          exact ⟨hwf, hinv⟩
        | some sub =>
          simp only []
          have hmem : sub ∈ db.subs := ((mem_active_subs db tid now sub).mp
            (List.mem_of_find?_eq_some hfind)).1
          cases hdt : refundDaysForTariff tariffCodeFromPayment sub with
          | none =>
            simp only []
            exact inv_deact1 db sub.id _ now hwf hinv
          | some daysForTariff =>
            simp only []
            have hD := refundDaysForTariff_pos tariffCodeFromPayment sub
              daysForTariff hdt
            have hd0 := daysToRevert_nonneg daysForTariff refundAmount
              totalAmount hD
            by_cases hnow : sub.expires_at -
                daysToRevert daysForTariff refundAmount totalAmount * 86400 ≤ now
            · rw [if_pos hnow]
              exact inv_deact1 db sub.id _ now hwf hinv
            · rw [if_neg hnow]
              exact inv_update_shorten db sub _ _ now hwf hinv hmem (by omega)

/-- Paying a subscription extension with points keeps the invariant. -/
theorem inv_payPoints (db : DB) (tg : Int) (code : String) (now : Int)
    (hwf : SubsWF db) (hinv : ∀ t, countActive db t now ≤ 1) :
    SubsWF (pay_subscription_with_points db tg code now).1 ∧
    ∀ t, countActive (pay_subscription_with_points db tg code now).1 t now ≤ 1 := by
  simp only [pay_subscription_with_points]
  by_cases hcode : (code == "") = true
  · rw [if_pos hcode]
    exact ⟨hwf, hinv⟩
  · rw [if_neg hcode]
    cases hft : findPointsTariff db code with
    | none =>
      simp only []
      exact ⟨hwf, hinv⟩
    | some tf =>
      simp only []
      by_cases hbad : (decide (tf.points_cost.getD 0 ≤ 0) ||
          decide (tf.duration_days.getD 0 ≤ 0)) = true
      · rw [if_pos hbad]
        exact ⟨hwf, hinv⟩
      · rw [if_neg hbad]
        cases hlat : get_latest_subscription_for_telegram db tg now with
        | none =>
          simp only []
          exact ⟨hwf, hinv⟩
        | some sub =>
          simp only []
          by_cases hibal : balanceOf db tg < tf.points_cost.getD 0
          · rw [if_pos hibal]
            exact ⟨hwf, hinv⟩
          · rw [if_neg hibal]
            have hmemAct : sub ∈ get_active_subscriptions_for_telegram db tg now := by
              rw [get_latest_subscription_for_telegram] at hlat
              exact List.mem_of_mem_head? hlat
            have hmm := (mem_active_subs db tg now sub).mp hmemAct
            have hdur : 0 < tf.duration_days.getD 0 := by
              simp only [Bool.or_eq_true, decide_eq_true_eq, not_or] at hbad
              omega
            have hnew : now <
                max sub.expires_at now + tf.duration_days.getD 0 * 86400 :=
              lt_of_le_of_lt (le_max_right sub.expires_at now)
                (lt_add_of_pos_right _ (by omega))
            set db1 : DB :=
              { db with
                  balances := upsertBalance db.balances tg
                    (balanceOf db tg - tf.points_cost.getD 0)
                  txs := db.txs ++
                    [{ telegram_user_id := tg, delta := -tf.points_cost.getD 0
                       reason := "subscription_extend", source := "points"
                       related_subscription_id := some sub.id, level := none }] }
              with hdb1
            have huniq1 : ∀ r ∈ db1.subs, r.id = sub.id → r = sub :=
              SubsWF_uniq db hwf sub hmm.1
            refine ⟨SubsWF_update db1 sub.id _ _ (SubsWF_congr db db1 rfl rfl hwf),
              fun u => ?_⟩
            rw [countActive_update_eq db1 sub _ _ now huniq1
              (isActiveFor_expires hmm.2) hnew u]
            exact le_trans (le_of_eq (countActive_congr db db1 rfl u now)) (hinv u)

/-- The points-tariff purchase callback keeps the invariant. -/
theorem inv_pointsPay (db : DB) (now : Int) (tg : Int) (tariffCode : String)
    (pointsCost durationDays : Int) (freshPriv freshPub : String) (wgOk : Bool)
    (hwf : SubsWF db) (hinv : ∀ t, countActive db t now ≤ 1) :
    SubsWF (points_tariff_payment db now tg tariffCode pointsCost durationDays
      freshPriv freshPub wgOk).1 ∧
    ∀ t, countActive (points_tariff_payment db now tg tariffCode pointsCost
      durationDays freshPriv freshPub wgOk).1 t now ≤ 1 := by
  simp only [points_tariff_payment]
  by_cases hbal : balanceOf db tg < pointsCost
  · rw [if_pos hbal]
    exact ⟨hwf, hinv⟩
  · rw [if_neg hbal]
    cases hlat : get_latest_subscription_for_telegram db tg now with
    | none =>
      simp only []
      cases hip : generate_client_ip (deactivate_existing_active_subscriptions
          db tg "auto_replace_points_payment" now) now with
      | none =>
        exact inv_deactAll db tg "auto_replace_points_payment" now hwf hinv
      | some ip =>
        simp only []
        by_cases hwg : wgOk = true
        · rw [if_pos hwg]
          exact inv_add_points _ tg (-pointsCost) "pay_tariff_points" "points"
            _ none false now
            (inv_create db tg "auto_replace_points_payment" now _ _ _ _ _ _ _
              hwf hinv).1
            (inv_create db tg "auto_replace_points_payment" now _ _ _ _ _ _ _
              hwf hinv).2
        · rw [if_neg hwg]
          exact inv_deactAll db tg "auto_replace_points_payment" now hwf hinv
    | some s =>
      simp only []
      by_cases hkeys : (s.wg_private_key != "" && s.wg_public_key != "" &&
          s.vpn_ip != "") = true
      · rw [if_pos hkeys]
        simp only []
        by_cases hwg : wgOk = true
        · rw [if_pos hwg]
          exact inv_add_points _ tg (-pointsCost) "pay_tariff_points" "points"
            _ none false now
            (inv_create db tg "auto_replace_points_payment" now _ _ _ _ _ _ _
              hwf hinv).1
            (inv_create db tg "auto_replace_points_payment" now _ _ _ _ _ _ _
              hwf hinv).2
        · rw [if_neg hwg]
          exact inv_deactAll db tg "auto_replace_points_payment" now hwf hinv
      · rw [if_neg hkeys]
        simp only []
        cases hip : generate_client_ip (deactivate_existing_active_subscriptions
            db tg "auto_replace_points_payment" now) now with
        | none =>
          exact inv_deactAll db tg "auto_replace_points_payment" now hwf hinv
        | some ip =>
          simp only []
          by_cases hwg : wgOk = true
          · rw [if_pos hwg]
            exact inv_add_points _ tg (-pointsCost) "pay_tariff_points" "points"
              _ none false now
              (inv_create db tg "auto_replace_points_payment" now _ _ _ _ _ _ _
                hwf hinv).1
              (inv_create db tg "auto_replace_points_payment" now _ _ _ _ _ _ _
                hwf hinv).2
          · rw [if_neg hwg]
            exact inv_deactAll db tg "auto_replace_points_payment" now hwf hinv

/-- One database-mutating operation of the service, with all of its external
inputs (payment ids, tariff data, fresh WireGuard material, command results). -/
inductive Op where
  | yookassa (paymentId : String) (tg : Int) (tariffCode : String)
      (apiCreatedAt : Option Int) (fetchCreatedAt : String → Option Int)
      (freshPriv freshPub : String) (wgOk : Bool)
  | heleket (uuid : String) (tg : Int) (tariffCode : String)
      (freshPriv freshPub : String) (wgOk : Bool)
  | trial (tg : Int) (freshPriv freshPub : String) (wgOk : Bool)
  | pointsPay (tg : Int) (tariffCode : String) (pointsCost durationDays : Int)
      (freshPriv freshPub : String) (wgOk : Bool)
  | refund (refundId origPaymentId : String) (refundAmount totalAmount : ℚ)
      (tariffCodeFromPayment : Option String) (apiTgId : Option Int)
  | payPoints (tg : Int) (code : String)
  | addPts (tg delta : Int) (reason source : String) (relSub : Option Nat)
      (level : Option Nat) (allowNegative : Bool)
  | refRewards (payer : Int) (subId : Nat) (tariffCode paymentSource : String)

/-- Apply one operation to the database at time `now`. -/
def stepOp (db : DB) (now : Int) : Op → DB
  | .yookassa pid tg code api fetch pr pb wg =>
      (handle_yookassa_success db now pid tg code api fetch pr pb wg).1
  | .heleket uuid tg code pr pb wg =>
      (handle_heleket_paid db now uuid tg code pr pb wg).1
  | .trial tg pr pb wg => try_give_referral_trial_7d db now tg pr pb wg
  | .pointsPay tg code cost dur pr pb wg =>
      (points_tariff_payment db now tg code cost dur pr pb wg).1
  | .refund rid pid ra ta tcp atid =>
      (handle_yookassa_refund db now rid pid ra ta tcp atid).1
  | .payPoints tg code => (pay_subscription_with_points db tg code now).1
  | .addPts tg delta reason source rel lvl an =>
      (add_points db tg delta reason source rel lvl an).1
  | .refRewards payer subId code src =>
      (apply_referral_rewards_for_subscription db payer subId code src).1

/-- The states reachable from the empty database by the modeled operations,
executed at non-decreasing wall-clock times. -/
inductive Reach : DB → Int → Prop where
  | init (t : Int) : Reach emptyDB t
  | step {db : DB} {t : Int} (t' : Int) (op : Op) (h : Reach db t)
      (ht : t ≤ t') : Reach (stepOp db t' op) t'

theorem SubsWF_empty : SubsWF emptyDB := by
  constructor
  · simp [emptyDB]
  · intro s hs
    simp [emptyDB] at hs

/-- Every single operation preserves the invariant. -/
theorem stepOp_inv (db : DB) (now : Int) (op : Op) (hwf : SubsWF db)
    (hinv : ∀ t, countActive db t now ≤ 1) :
    SubsWF (stepOp db now op) ∧ ∀ t, countActive (stepOp db now op) t now ≤ 1 := by
  cases op with
  | yookassa pid tg code api fetch pr pb wg =>
    exact inv_yookassa db now pid tg code api fetch pr pb wg hwf hinv
  | heleket uuid tg code pr pb wg =>
    exact inv_heleket db now uuid tg code pr pb wg hwf hinv
  | trial tg pr pb wg => exact inv_trial db now tg pr pb wg hwf hinv
  | pointsPay tg code cost dur pr pb wg =>
    exact inv_pointsPay db now tg code cost dur pr pb wg hwf hinv
  | refund rid pid ra ta tcp atid =>
    exact inv_refund db now rid pid ra ta tcp atid hwf hinv
  | payPoints tg code => exact inv_payPoints db tg code now hwf hinv
  | addPts tg delta reason source rel lvl an =>
    exact inv_add_points db tg delta reason source rel lvl an now hwf hinv
  | refRewards payer subId code src =>
    have h := apply_referral_subs_next db payer subId code src
    refine ⟨SubsWF_congr db _ h.1 h.2 hwf, fun t => ?_⟩
    show countActive
      (apply_referral_rewards_for_subscription db payer subId code src).1 t now ≤ 1
    rw [countActive_congr db _ h.1 t now]
    exact hinv t

/-- Any reachable state is well formed and has at most one active
not-yet-expired subscription per user. -/
theorem reach_inv (db : DB) (t : Int) (h : Reach db t) :
    SubsWF db ∧ ∀ tg, countActive db tg t ≤ 1 := by
  induction h with
  | init t0 =>
    exact ⟨SubsWF_empty, fun tg => by simp [countActive, emptyDB]⟩
  | step t2 op hr ht ih =>
    exact stepOp_inv _ t2 op ih.1
      (fun tg => le_trans (countActive_mono _ tg _ t2 ht) (ih.2 tg))

/-- C1: for every `telegram_user_id`, every state reachable from the empty
database by the modeled operations (YooKassa card webhook, Heleket crypto
webhook, referral trial, points-tariff payment, refund, points-balance
payment and ledger operations, referral rewards) run at non-decreasing
times has at most one subscription row that is both active and not yet
expired; every create path first deactivates all currently-active
non-expired rows of that user and only then inserts the new active row. -/
theorem one_active_subscription_per_user (db : DB) (t : Int) (h : Reach db t)
    (tg : Int) : countActive db tg t ≤ 1 :=
  (reach_inv db t h).2 tg

theorem one_active_subscription_per_user_witness :
    Reach (stepOp (stepOp emptyDB 3 (Op.trial 100 "kA" "kB" true)) 5
      (Op.yookassa "p1" 100 "1m" none (fun _ => none) "kC" "kD" true)) 5 ∧
    countActive (stepOp (stepOp emptyDB 3 (Op.trial 100 "kA" "kB" true)) 5
      (Op.yookassa "p1" 100 "1m" none (fun _ => none) "kC" "kD" true)) 100 5 ≤ 1 :=
  ⟨Reach.step 5 (Op.yookassa "p1" 100 "1m" none (fun _ => none) "kC" "kD" true)
     (Reach.step 3 (Op.trial 100 "kA" "kB" true) (Reach.init 3) (by decide))
     (by decide),
   one_active_subscription_per_user _ 5
     (Reach.step 5 (Op.yookassa "p1" 100 "1m" none (fun _ => none) "kC" "kD" true)
       (Reach.step 3 (Op.trial 100 "kA" "kB" true) (Reach.init 3) (by decide))
       (by decide))
     100⟩

end VpnService
